import Mathlib

/-!
Verification development for the CascadeUI view/session/state engine.

The Python source is embedded shallowly:

* Python `dict`s become association lists (`AMap`) with insertion-order
  semantics: assignment replaces an existing key's value in place or appends
  a fresh binding at the end; `del` removes the binding; lookup returns an
  `Option`.
* Python values stored in the state tree become the inductive type `Value`;
  Python truthiness is `Value.falsy`.
* Code that can raise becomes `Except String` (the error string names the
  Python exception class).
* `datetime.now()` becomes an explicit time parameter (seconds as `Int`).
* Reducers return `RRes`: `RRes.sameRef` records that the source executed
  `return state` (the caller's own object, reference-identical), while
  `RRes.newObj s` records `return new_state` — the `copy.deepcopy`-derived
  object, which is never reference-identical to the input even when its
  value is equal.
-/

namespace CascadeUI

/-- Association map modelling a Python `dict`: a list of key/value bindings
in insertion order. -/
abbrev AMap (kk : Type) (aa : Type) := List (kk × aa)

/-- Dictionary lookup, `d.get(k)` / `d[k]`: the value bound to the key, if any. -/
def mget {kk aa : Type} [DecidableEq kk] : AMap kk aa → kk → Option aa
  | [], _ => Option.none
  | (k, v) :: rest, key => if k = key then some v else mget rest key

/-- Dictionary assignment `d[k] = v`: replace the value of an existing key in
place, or append a fresh binding at the end (Python dicts preserve insertion
order). -/
def mset {kk aa : Type} [DecidableEq kk] : AMap kk aa → kk → aa → AMap kk aa
  | [], key, v => [(key, v)]
  | (k, w) :: rest, key, v =>
      if k = key then (k, v) :: rest else (k, w) :: mset rest key v

/-- Dictionary deletion `del d[k]`: remove the binding of the key. -/
def mdel {kk aa : Type} [DecidableEq kk] : AMap kk aa → kk → AMap kk aa
  | [], _ => []
  | (k, v) :: rest, key =>
      if k = key then mdel rest key else (k, v) :: mdel rest key

/-- Key membership `k in d`. -/
def mhas {kk aa : Type} [DecidableEq kk] (m : AMap kk aa) (k : kk) : Bool :=
  (mget m k).isSome

/-- Python `\x7b**a, **b\x7d`: a's bindings first, then b's bindings overriding. -/
def mmerge {kk aa : Type} [DecidableEq kk] (a b : AMap kk aa) : AMap kk aa :=
  b.foldl (fun acc kv => mset acc kv.1 kv.2) a

/-- Python values as stored in the state tree (`src/state`): `None`, booleans,
numbers, strings, lists, and string-keyed dicts. -/
inductive Value where
  | vnone : Value
  | vbool : Bool → Value
  | vint : Int → Value
  | vstr : String → Value
  | vlist : List Value → Value
  | vdict : List (String × Value) → Value

/-- Python truthiness: `None`, `False`, `0`, `""` and empty containers are
falsy. -/
def Value.falsy : Value → Bool
  | Value.vnone => true
  | Value.vbool b => !b
  | Value.vint n => n == 0
  | Value.vstr s => s == ""
  | Value.vlist xs => xs.isEmpty
  | Value.vdict m => m.isEmpty

/-- The state tree of `StateStore` and the payloads of actions are
string-keyed dicts. -/
abbrev StateData := AMap String Value

/-- The action record built by `StateStore.dispatch`: keys `type`, `payload`,
`source`, `timestamp`. Actions built by `dispatch` carry exactly these keys,
so `action.get("skip_self_notify", False)` — read by `_notify_subscribers` —
is `False` for them; the field records that default. -/
structure Action where
  atype : String
  payload : AMap String Value
  source : Option String
  timestamp : String
  skip_self_notify : Bool := false

/-- What a reducer in `src/state/reducers.py` returns, keeping track of
Python object identity: `sameRef` is the source's `return state` — the very
object the caller passed in — while `newObj s` is `return new_state`, the
`copy.deepcopy`-derived object of value `s`, which is a fresh dict and never
reference-identical to the input. -/
inductive RRes where
  | sameRef : RRes
  | newObj : StateData → RRes

/-- The state a reducer application leaves the caller with, as a value. -/
def RRes.result (orig : StateData) : RRes → StateData
  | RRes.sameRef => orig
  | RRes.newObj s => s

/-- Reducers can raise (the store catches this in `dispatch`), so they land
in `Except`; the error string names the Python exception. -/
abbrev Reducer := Action → StateData → Except String RRes

/-- `payload.get(k)` followed by the source's truthiness test (`if not id:`),
extracting the id as the string it is in this system (ids are
uuid-derived nonempty strings). An absent key, a `None` or an empty string —
all falsy — give `none`, sending the reducer into its early-return branch.
A truthy value of another type is also mapped to `none`: where the source
would go on to use such a value as a key against the string-keyed containers,
the membership test can only miss, which the reducers below fold into the
same skip branch. -/
def idOf (p : AMap String Value) (k : String) : Option String :=
  match mget p k with
  | some (Value.vstr s) => if s = "" then Option.none else some s
  | _ => Option.none

/-- `payload.get(k)` with the source's truthiness guard, keeping the raw
value (used where the value is only stored, not used as a key). -/
def truthyValue (p : AMap String Value) (k : String) : Option Value :=
  match mget p k with
  | some v => if v.falsy then Option.none else some v
  | Option.none => Option.none

/-- A stored value that the source guards with `if value and ...` and then
uses as a lookup key against the string-keyed `sessions` container. Falsy
values take the skip branch before any lookup; a nonempty string is the key;
a truthy number or boolean is hashable but never equal to a string key, so
the membership test misses (the same skip branch); a truthy (hence nonempty)
list or dict is unhashable and raises `TypeError` in the membership test. -/
def usableKey : Value → Except String (Option String)
  | Value.vnone => pure Option.none
  | Value.vbool _ => pure Option.none
  | Value.vint _ => pure Option.none
  | Value.vstr s => pure (if s = "" then Option.none else some s)
  | Value.vlist l => if l.isEmpty then pure Option.none else throw "TypeError"
  | Value.vdict m => if m.isEmpty then pure Option.none else throw "TypeError"

/-- Python `x in l` for a string id against a list of stored values:
element-wise `==`, which is `True` only against an equal string. -/
def lhasStr (l : List Value) (s : String) : Bool :=
  l.any (fun v => match v with
    | Value.vstr t => t == s
    | _ => false)

/-- Python `l.remove(x)` for a string id: drop the first equal element. -/
def lremoveStr : List Value → String → List Value
  | [], _ => []
  | v :: rest, s =>
      match v with
      | Value.vstr t => if t = s then rest else Value.vstr t :: lremoveStr rest s
      | other => other :: lremoveStr rest s

/-- The view record literal built by `reduce_view_created`
(`src/state/reducers.py:26-36`); `payload.get(k)` defaults to `None`,
`payload.get("props", ...)` to an empty dict. -/
def mkViewRec (view_id : String) (p : AMap String Value) (ts : String) : AMap String Value :=
  [("id", Value.vstr view_id),
   ("type", (mget p "view_type").getD Value.vnone),
   ("user_id", (mget p "user_id").getD Value.vnone),
   ("session_id", (mget p "session_id").getD Value.vnone),
   ("created_at", Value.vstr ts),
   ("updated_at", Value.vstr ts),
   ("props", (mget p "props").getD (Value.vdict [])),
   ("message_id", (mget p "message_id").getD Value.vnone),
   ("channel_id", (mget p "channel_id").getD Value.vnone)]

/-- The session record literal built by `reduce_session_created`
(`src/state/reducers.py:112-120`). -/
def mkSessionRec (session_id : String) (p : AMap String Value) (ts : String) : AMap String Value :=
  [("id", Value.vstr session_id),
   ("user_id", (mget p "user_id").getD Value.vnone),
   ("created_at", Value.vstr ts),
   ("updated_at", Value.vstr ts),
   ("views", Value.vlist []),
   ("history", Value.vlist []),
   ("data", (mget p "data").getD (Value.vdict []))]

/-- `reduce_view_created` (`src/state/reducers.py:12-47`). Adds a view
record under the id; if the payload names a session that already exists,
appends the id to that session's `views` list (no duplicates). The `throw`
branches are the container-shape errors Python would raise (item assignment
or membership test on a non-dict, append to a non-list); every state the
store can reach keeps dicts and lists there. -/
def reduce_view_createdR (action : Action) (state : StateData) : Except String RRes := do
  let payload := action.payload
  match idOf payload "view_id" with
  | Option.none => return RRes.sameRef
  | some view_id => do
    let views0 : AMap String Value ←
      match mget state "views" with
      | Option.none => pure []
      | some (Value.vdict m) => pure m
      | some _ => throw "TypeError"
    let st1 := mset state "views"
      (Value.vdict (mset views0 view_id (Value.vdict (mkViewRec view_id payload action.timestamp))))
    match idOf payload "session_id" with
    | Option.none => return RRes.newObj st1
    | some session_id =>
      match mget st1 "sessions" with
      | Option.none => return RRes.newObj st1
      | some (Value.vdict sessions) =>
        match mget sessions session_id with
        | Option.none => return RRes.newObj st1
        | some (Value.vdict srec) => do
          let vl ←
            match mget srec "views" with
            | Option.none => pure ([] : List Value)
            | some (Value.vlist l) => pure l
            | some _ => throw "TypeError"
          let vl2 := if lhasStr vl view_id then vl else vl ++ [Value.vstr view_id]
          let srec2 := mset srec "views" (Value.vlist vl2)
          return RRes.newObj (mset st1 "sessions" (Value.vdict (mset sessions session_id (Value.vdict srec2))))
        | some _ => throw "TypeError"
      | some _ => throw "TypeError"

/-- `reduce_view_updated` (`src/state/reducers.py:50-68`). Early-returns the
caller's own `state` object when the id is falsy, the `views` container is
absent, or the id is not a key of it; otherwise bumps `updated_at` and merges
every payload entry except `view_id` into the record, in payload order. -/
def reduce_view_updatedR (action : Action) (state : StateData) : Except String RRes := do
  let payload := action.payload
  match idOf payload "view_id" with
  | Option.none => return RRes.sameRef
  | some view_id =>
    match mget state "views" with
    | Option.none => return RRes.sameRef
    | some (Value.vdict views) =>
      match mget views view_id with
      | Option.none => return RRes.sameRef
      | some (Value.vdict rec) => do
        let rec1 := mset rec "updated_at" (Value.vstr action.timestamp)
        let rec2 := payload.foldl
          (fun acc kv => if kv.1 = "view_id" then acc else mset acc kv.1 kv.2) rec1
        return RRes.newObj (mset state "views" (Value.vdict (mset views view_id (Value.vdict rec2))))
      | some _ => throw "TypeError"
    | some _ => throw "TypeError"

/-- `reduce_view_destroyed` (`src/state/reducers.py:71-93`). Early-returns
the caller's own `state` when the id is falsy or not a live view; otherwise
deletes the record and removes the id from its session's `views` list when
that session exists and lists it. -/
def reduce_view_destroyedR (action : Action) (state : StateData) : Except String RRes := do
  let payload := action.payload
  match idOf payload "view_id" with
  | Option.none => return RRes.sameRef
  | some view_id =>
    match mget state "views" with
    | Option.none => return RRes.sameRef
    | some (Value.vdict views) =>
      match mget views view_id with
      | Option.none => return RRes.sameRef
      | some (Value.vdict rec) => do
        let session_idV := (mget rec "session_id").getD Value.vnone
        let st1 := mset state "views" (Value.vdict (mdel views view_id))
        let sidO ← usableKey session_idV
        match sidO with
        | Option.none => return RRes.newObj st1
        | some sid =>
          match mget st1 "sessions" with
          | Option.none => return RRes.newObj st1
          | some (Value.vdict sessions) =>
            match mget sessions sid with
            | Option.none => return RRes.newObj st1
            | some (Value.vdict srec) =>
              match mget srec "views" with
              | Option.none => return RRes.newObj st1
              | some (Value.vlist l) =>
                if lhasStr l view_id then
                  let srec2 := mset srec "views" (Value.vlist (lremoveStr l view_id))
                  return RRes.newObj (mset st1 "sessions" (Value.vdict (mset sessions sid (Value.vdict srec2))))
                else
                  return RRes.newObj st1
              | some _ => throw "TypeError"
            | some _ => throw "TypeError"
          | some _ => throw "TypeError"
      | some _ => throw "AttributeError"
    | some _ => throw "TypeError"

/-- `reduce_session_created` (`src/state/reducers.py:96-122`). Early-returns
the caller's own `state` only when the id is falsy; if the id already exists
it creates nothing and returns the (value-identical) deepcopy; otherwise it
inserts a fresh record with empty `views` and `history`. -/
def reduce_session_createdR (action : Action) (state : StateData) : Except String RRes := do
  let payload := action.payload
  match idOf payload "session_id" with
  | Option.none => return RRes.sameRef
  | some session_id =>
    match mget state "sessions" with
    | Option.none =>
      return RRes.newObj (mset state "sessions"
        (Value.vdict (mset ([] : AMap String Value) session_id
          (Value.vdict (mkSessionRec session_id payload action.timestamp)))))
    | some (Value.vdict sessions) =>
      if mhas sessions session_id then
        return RRes.newObj state
      else
        return RRes.newObj (mset state "sessions"
          (Value.vdict (mset sessions session_id
            (Value.vdict (mkSessionRec session_id payload action.timestamp)))))
    | some _ => throw "TypeError"

/-- `reduce_session_updated` (`src/state/reducers.py:125-145`). Early-returns
the caller's own `state` when the id is falsy, the `sessions` container is
absent, or the id is not a key of it; otherwise bumps `updated_at` and, when
the payload carries a `data` key, shallow-merges it over the record's `data`. -/
def reduce_session_updatedR (action : Action) (state : StateData) : Except String RRes := do
  let payload := action.payload
  match idOf payload "session_id" with
  | Option.none => return RRes.sameRef
  | some session_id =>
    match mget state "sessions" with
    | Option.none => return RRes.sameRef
    | some (Value.vdict sessions) =>
      match mget sessions session_id with
      | Option.none => return RRes.sameRef
      | some (Value.vdict srec) => do
        let srec1 := mset srec "updated_at" (Value.vstr action.timestamp)
        match mget payload "data" with
        | Option.none =>
          return RRes.newObj (mset state "sessions" (Value.vdict (mset sessions session_id (Value.vdict srec1))))
        | some dV => do
          let old ←
            match mget srec1 "data" with
            | Option.none => pure ([] : AMap String Value)
            | some (Value.vdict m) => pure m
            | some _ => throw "TypeError"
          let newd ←
            match dV with
            | Value.vdict m => pure m
            | _ => throw "TypeError"
          let srec2 := mset srec1 "data" (Value.vdict (mmerge old newd))
          return RRes.newObj (mset state "sessions" (Value.vdict (mset sessions session_id (Value.vdict srec2))))
      | some _ => throw "TypeError"
    | some _ => throw "TypeError"

/-- `reduce_navigation` (`src/state/reducers.py:148-179`). Early-returns the
caller's own `state` only when the action's source or the destination is
falsy; otherwise, when the source view and its session resolve, appends a
navigation entry to the session's `history`, and in every other case returns
the (value-identical) deepcopy. -/
def reduce_navigationR (action : Action) (state : StateData) : Except String RRes := do
  let payload := action.payload
  let source_id :=
    match action.source with
    | Option.none => Option.none
    | some s => if s = "" then Option.none else some s
  let dest :=
    match mget payload "destination" with
    | some v => if v.falsy then Option.none else some v
    | Option.none => Option.none
  match source_id, dest with
  | some sid, some destV =>
    match mget state "views" with
    | Option.none => return RRes.newObj state
    | some (Value.vdict views) =>
      match mget views sid with
      | Option.none => return RRes.newObj state
      | some (Value.vdict vrec) => do
        let sessO ← usableKey ((mget vrec "session_id").getD Value.vnone)
        match sessO with
        | Option.none => return RRes.newObj state
        | some sessid =>
          match mget state "sessions" with
          | Option.none => return RRes.newObj state
          | some (Value.vdict sessions) =>
            match mget sessions sessid with
            | Option.none => return RRes.newObj state
            | some (Value.vdict srec) => do
              let hist ←
                match mget srec "history" with
                | Option.none => pure ([] : List Value)
                | some (Value.vlist l) => pure l
                | some _ => throw "TypeError"
              let entry := Value.vdict
                [("from_view", Value.vstr sid),
                 ("to_view_type", destV),
                 ("timestamp", Value.vstr action.timestamp),
                 ("params", (mget payload "params").getD (Value.vdict []))]
              let srec2 := mset srec "history" (Value.vlist (hist ++ [entry]))
              return RRes.newObj (mset state "sessions" (Value.vdict (mset sessions sessid (Value.vdict srec2))))
            | some _ => throw "TypeError"
          | some _ => throw "TypeError"
      | some _ => throw "AttributeError"
    | some _ => throw "TypeError"
  | _, _ => return RRes.sameRef

/-- `reduce_component_interaction` (`src/state/reducers.py:182-215`).
Early-returns the caller's own `state` when the component id or the view id
is falsy; otherwise appends an interaction entry to the component's log
(creating the record if absent) and bumps `last_interaction`. -/
def reduce_component_interactionR (action : Action) (state : StateData) : Except String RRes := do
  let payload := action.payload
  match idOf payload "component_id", truthyValue payload "view_id" with
  | some component_id, some view_idV => do
    let comps0 : AMap String Value ←
      match mget state "components" with
      | Option.none => pure []
      | some (Value.vdict m) => pure m
      | some _ => throw "TypeError"
    let crec ←
      match mget comps0 component_id with
      | Option.none => pure [("id", Value.vstr component_id), ("interactions", Value.vlist [])]
      | some (Value.vdict m) => pure m
      | some _ => throw "TypeError"
    let ints ←
      match mget crec "interactions" with
      | some (Value.vlist l) => pure l
      | _ => throw "TypeError"
    let entry := Value.vdict
      [("user_id", (mget payload "user_id").getD Value.vnone),
       ("view_id", view_idV),
       ("value", (mget payload "value").getD Value.vnone),
       ("timestamp", Value.vstr action.timestamp)]
    let crec2 := mset crec "interactions" (Value.vlist (ints ++ [entry]))
    let crec3 := mset crec2 "last_interaction" (Value.vstr action.timestamp)
    return RRes.newObj (mset state "components" (Value.vdict (mset comps0 component_id (Value.vdict crec3))))
  | _, _ => return RRes.sameRef

/-- A subscriber callback (`src/state/store.py`): invoked with the store's
current state and the action; it may raise, which `_safe_notify` swallows. -/
abbrev Subscriber := StateData → Action → Except String Unit

/-- The `StateStore` singleton's mutable attributes (`src/state/store.py:33-69`).
Persistence is disabled at init and enabling it only spawns fire-and-forget
save tasks, which have no effect on the fields modelled here. -/
structure StateStore where
  state : StateData
  subscribers : AMap String Subscriber
  core_reducers : AMap String Reducer
  custom_reducers : AMap String Reducer
  reducers : AMap String Reducer
  history : List Action
  history_limit : Nat

/-- The freshly-initialised store: the four top-level namespaces as empty
dicts, no subscribers, no reducers loaded yet, empty history, limit 100. -/
def StateStore.init : StateStore :=
  { state := [("sessions", Value.vdict []), ("views", Value.vdict []),
              ("components", Value.vdict []), ("application", Value.vdict [])],
    subscribers := [],
    core_reducers := [],
    custom_reducers := [],
    reducers := [],
    history := [],
    history_limit := 100 }

/-- The table `_load_core_reducers` registers (`src/state/store.py:88-96`). -/
def coreReducerTable : AMap String Reducer :=
  [("VIEW_CREATED", reduce_view_createdR),
   ("VIEW_UPDATED", reduce_view_updatedR),
   ("VIEW_DESTROYED", reduce_view_destroyedR),
   ("SESSION_CREATED", reduce_session_createdR),
   ("SESSION_UPDATED", reduce_session_updatedR),
   ("NAVIGATION", reduce_navigationR),
   ("COMPONENT_INTERACTION", reduce_component_interactionR)]

/-- `StateStore._load_core_reducers` (`src/state/store.py:71-100`): a no-op
once the core table is non-empty; otherwise installs the core table and
rebuilds the combined table with custom reducers overriding. -/
def load_core_reducers (st : StateStore) : StateStore :=
  if st.core_reducers.isEmpty then
    { st with core_reducers := coreReducerTable,
              reducers := mmerge coreReducerTable st.custom_reducers }
  else st

/-- `StateStore.register_reducer` (`src/state/store.py:102-105`): inserts
into both the custom and the live combined table. -/
def register_reducer (st : StateStore) (action_type : String) (r : Reducer) : StateStore :=
  { st with custom_reducers := mset st.custom_reducers action_type r,
            reducers := mset st.reducers action_type r }

/-- `StateStore.unregister_reducer` (`src/state/store.py:107-112`): removes a
custom reducer if present and rebuilds the combined table from core plus the
remaining custom ones. -/
def unregister_reducer (st : StateStore) (action_type : String) : StateStore :=
  if mhas st.custom_reducers action_type then
    let c := mdel st.custom_reducers action_type
    { st with custom_reducers := c, reducers := mmerge st.core_reducers c }
  else st

/-- The action object `dispatch` builds (`src/state/store.py:121-126`):
`payload or \x7b\x7d` replaces a missing or falsy payload with an empty dict. -/
def builtAction (action_type : String) (payload : Option (AMap String Value))
    (source_id : Option String) (now : String) : Action :=
  { atype := action_type, payload := payload.getD [], source := source_id, timestamp := now }

/-- The history update of `dispatch` (`src/state/store.py:130-133`): append,
then pop the oldest entry when over the limit. -/
def stepHist (limit : Nat) (h : List Action) (a : Action) : List Action :=
  let h2 := h ++ [a]
  if h2.length > limit then h2.drop 1 else h2

/-- `StateStore._notify_subscribers` together with `_safe_notify`
(`src/state/store.py:163-207`): every subscriber is notified — the skip
condition needs `action.get("skip_self_notify", False)`, which no
dispatch-built action carries — each through the isolating `_safe_notify`
wrapper, which swallows the callback's exception. The log records, per
subscriber in registration order, the outcome its callback produced; no
outcome propagates. -/
def notifySubscribers (subs : AMap String Subscriber) (st : StateData) (action : Action) :
    List (String × Except String Unit) :=
  subs.filterMap (fun p =>
    if action.source = some p.1 ∧ action.skip_self_notify then Option.none
    else some (p.1, p.2 st action))

/-- What one `dispatch` call leaves behind: the mutated store, the state
snapshot it returns, and the record of subscriber notifications. -/
structure DispatchResult where
  store : StateStore
  result : StateData
  notified : List (String × Except String Unit)

/-- `StateStore.dispatch` (`src/state/store.py:114-161`): builds the action,
appends it to the bounded history, lazily loads the core reducers, looks up a
reducer for the action type — applying it and committing its returned state,
with a raised exception caught and treated as no state change, and a missing
reducer leaving the state unchanged — then notifies all subscribers and
returns the resulting state. `datetime.now().isoformat()` is the explicit
`now` argument. -/
def dispatch (st : StateStore) (action_type : String) (payload : Option (AMap String Value))
    (source_id : Option String) (now : String) : DispatchResult :=
  let action := builtAction action_type payload source_id now
  let st1 := { st with history := stepHist st.history_limit st.history action }
  let st2 := load_core_reducers st1
  let newState :=
    match mget st2.reducers action_type with
    | some r =>
      match r action st2.state with
      | Except.ok rr => RRes.result st2.state rr
      | Except.error _ => st2.state
    | Option.none => st2.state
  let st3 := { st2 with state := newState }
  { store := st3, result := st3.state, notified := notifySubscribers st3.subscribers st3.state action }

/-- The inputs of one `dispatch` call, for reasoning about call sequences. -/
structure DisIn where
  atype : String
  payload : Option (AMap String Value)
  source : Option String
  now : String

/-- A sequence of `dispatch` calls against the store. -/
def runDispatches (st : StateStore) (ins : List DisIn) : StateStore :=
  ins.foldl (fun s i => (dispatch s i.atype i.payload i.source i.now).store) st

/-- A platform interaction as the manager and views read it: a numeric user
id (`interaction.user.id`) and the interaction's own id. -/
structure Interaction where
  user_id : Int
  iid : Int

/-- A live `CascadeView` instance as the session registry sees it: its
concrete class name (`__class__.__name__`), its current interaction
(`self.__interaction`), and the `_is_duplicate` flag set by deduplication.
Both flags start `False`/`None` in `CascadeView.__init__`
(`src/view.py:54-74`). -/
structure ViewInst where
  className : String
  interaction : Option Interaction
  is_duplicate : Bool

/-- A `UISession` (`src/session.py:26-33`): the user id it is keyed by, the
live view instances, the idle-eviction clock (seconds), and the bounded
navigation history of (name, class) pairs. -/
structure UISession where
  uid : Int
  views : List ViewInst
  last_interaction_time : Int
  view_history : List (String × String)

/-- The `UIManager` singleton's attributes (`src/manager.py:37-41`): the
session table keyed by `Optional[int]` — `__init__` seeds it with a
`None -> None` entry via `setdefault` — and the cleanup rate-limit clock
(seconds; `datetime.now()` at construction). Middlewares play no role in the
operations modelled here. -/
structure UIManager where
  sessions : AMap (Option Int) (Option UISession)
  last_cleanup : Int

/-- A freshly-constructed manager at time `now`. -/
def UIManager.fresh (now : Int) : UIManager :=
  { sessions := [(Option.none, Option.none)], last_cleanup := now }

/-- The argument `get`/`set`/`delete` accept: a `UISession` object or a raw
user id. -/
inductive SessArg where
  | sessionObj : UISession → SessArg
  | userId : Int → SessArg

/-- Python truthiness of the argument, as tested by `if not session:` — a
`UISession` object is always truthy (the class defines no `__bool__` or
`__len__`), an integer is falsy exactly when it is `0`. -/
def sessArgFalsy : SessArg → Bool
  | SessArg.sessionObj _ => false
  | SessArg.userId n => n == 0

/-- `session.uid if isinstance(session, UISession) else session`
(`src/manager.py:68`). -/
def sessArgUid : SessArg → Int
  | SessArg.sessionObj s => s.uid
  | SessArg.userId n => n

/-- `UIManager.get` (`src/manager.py:49-76`): raises `TypeError` on a falsy
argument, then looks the normalised integer key up, returning the cached
session if the stored value is truthy and `None` otherwise. (The
`isinstance(sid, int)` guard cannot fire for the argument types modelled.) -/
def UIManager.get (m : UIManager) (session : SessArg) : Except String (Option UISession) :=
  if sessArgFalsy session then
    Except.error "TypeError: Parameter session required"
  else
    match mget m.sessions (some (sessArgUid session)) with
    | some (some cached) => Except.ok (some cached)
    | _ => Except.ok Option.none

/-- `UIManager.set` (`src/manager.py:78-105`): raises `TypeError` on a falsy
argument; stores a `UISession` under its own uid and returns it; a non-zero
raw integer falls through every branch and returns `None` without storing. -/
def UIManager.set (m : UIManager) (session : SessArg) : Except String (UIManager × Option UISession) :=
  if sessArgFalsy session then
    Except.error "TypeError: Parameter session required"
  else
    match session with
    | SessArg.sessionObj s =>
        Except.ok ({ m with sessions := mset m.sessions (some s.uid) (some s) }, some s)
    | SessArg.userId _ => Except.ok (m, Option.none)

/-- `UIManager.delete` (`src/manager.py:107-136`): raises `TypeError` on a
falsy argument; removes and returns the entry under the normalised key, with
the `KeyError` of a missing key caught and turned into `None`. -/
def UIManager.delete (m : UIManager) (session : SessArg) : Except String (UIManager × Option UISession) :=
  if sessArgFalsy session then
    Except.error "TypeError: Parameter session required"
  else
    match mget m.sessions (some (sessArgUid session)) with
    | some v => Except.ok ({ m with sessions := mdel m.sessions (some (sessArgUid session)) }, v)
    | Option.none => Except.ok (m, Option.none)

/-- The `for existing_view in session.views:` scan of
`check_for_existing_view`: the first live view whose class name matches. -/
def findSameClass : List ViewInst → String → Option ViewInst
  | [], _ => Option.none
  | v :: rest, cn => if v.className = cn then some v else findSameClass rest cn

/-- In-place mutation of the found view object inside the session's list:
replace the first view of the class. -/
def replaceSameClass : List ViewInst → String → ViewInst → List ViewInst
  | [], _, _ => []
  | v :: rest, cn, nv => if v.className = cn then nv :: rest else v :: replaceSameClass rest cn nv

/-- `UIManager.check_for_existing_view` (`src/manager.py:165-191`): with no
interaction attached, returns `None`; otherwise looks the interaction user's
session up through `self.get` — which raises `TypeError` when the user id is
`0` — and, when a live view of the same class exists, adopts the new
interaction onto that existing instance (mutating it inside the session),
marks the new instance `_is_duplicate = True`, and returns the existing
instance. The adoption `existing_view.interaction = view.interaction` goes
through the `interaction` property setter (`src/view.py:121-169`), whose own
duplicate scan looks for a same-class instance other than the existing view
itself; `UISession.set` keeps at most one instance per class name in a
session, so in every reachable session that scan finds nothing and the
setter's synchronous effect is exactly the assignment of the interaction
(the message handling it then triggers is scheduled as a separate task).
The result carries the (possibly mutated) manager, the new view object, and
the source's return value. -/
def UIManager.check_for_existing_view (m : UIManager) (view : ViewInst) :
    Except String (UIManager × ViewInst × Option ViewInst) :=
  match view.interaction with
  | Option.none => Except.ok (m, view, Option.none)
  | some inter => do
    let user_id := inter.user_id
    let sessionO ← m.get (SessArg.userId user_id)
    match sessionO with
    | Option.none => return (m, view, Option.none)
    | some session =>
      match findSameClass session.views view.className with
      | Option.none => return (m, view, Option.none)
      | some ev =>
        let ev2 := { ev with interaction := some inter }
        let session2 := { session with views := replaceSameClass session.views view.className ev2 }
        let m2 := { m with sessions := mset m.sessions (some user_id) (some session2) }
        return (m2, { view with is_duplicate := true }, some ev2)

/-- What the modelled fragment of `CascadeView.__init__` leaves behind:
`handler_triggered` records whether line 96 (`self.interaction =
interaction`, the interaction-handling path) is reached. -/
structure InitResult where
  manager : UIManager
  view : ViewInst
  existing : Option ViewInst
  handler_triggered : Bool

/-- The interaction-handling fragment of `CascadeView.__init__`
(`src/view.py:84-96`): a newly-built instance starts with no interaction and
`_is_duplicate = False`; when an interaction is supplied it is stored
without triggering the handler, `check_for_existing_view` runs, and the
constructor returns early — never entering the interaction-handling path —
exactly when the instance was flagged as a duplicate. -/
def cascadeViewInit (m : UIManager) (cls : String) (interactionArg : Option Interaction) :
    Except String InitResult :=
  let view0 : ViewInst := { className := cls, interaction := Option.none, is_duplicate := false }
  match interactionArg with
  | Option.none =>
      Except.ok { manager := m, view := view0, existing := Option.none, handler_triggered := false }
  | some inter => do
    let view1 := { view0 with interaction := some inter }
    let r ← m.check_for_existing_view view1
    match r with
    | (m2, view2, existing) =>
      if view2.is_duplicate then
        return { manager := m2, view := view2, existing := existing, handler_triggered := false }
      else
        return { manager := m2, view := view2, existing := existing, handler_triggered := true }

/-- The deletion loop at the end of `cleanup_old_sessions`
(`src/manager.py:246-250`): each eviction goes through `self.delete`; a
truthy return value counts. -/
def deleteLoop (m : UIManager) : List Int → Nat → Except String (UIManager × Nat)
  | [], count => Except.ok (m, count)
  | uid :: rest, count => do
    let r ← m.delete (SessArg.userId uid)
    match r with
    | (m2, some _) => deleteLoop m2 rest (count + 1)
    | (m2, Option.none) => deleteLoop m2 rest count

/-- The stale-session scan of `cleanup_old_sessions`
(`src/manager.py:237-244`): every entry except the default `None` key whose
(truthy) session's age exceeds the threshold; the source's
`total_seconds() / 60 > max_age_minutes` over real division is exactly
`now - t > max_age_minutes * 60` over the integers. -/
def staleUids (sessions : AMap (Option Int) (Option UISession)) (now maxAgeMinutes : Int) : List Int :=
  sessions.filterMap (fun p =>
    match p.1 with
    | Option.none => Option.none
    | some uid =>
      match p.2 with
      | some sess => if now - sess.last_interaction_time > maxAgeMinutes * 60 then some uid else Option.none
      | Option.none => Option.none)

/-- `UIManager.cleanup_old_sessions` (`src/manager.py:214-252`): returns `0`
without touching anything when the last pass ran less than 300 seconds ago;
otherwise stamps the clock, collects the stale non-default sessions, and
deletes them through `self.delete` — which raises `TypeError` if a stored
uid is `0` — returning the count of evictions. -/
def UIManager.cleanup_old_sessions (m : UIManager) (now : Int) (maxAgeMinutes : Int) :
    Except String (UIManager × Nat) :=
  if now - m.last_cleanup < 300 then
    Except.ok (m, 0)
  else
    let m1 := { m with last_cleanup := now }
    deleteLoop m1 (staleUids m1.sessions now maxAgeMinutes) 0

/-- The `views` namespace of the state tree, as a dict (its shape in every
reachable state). -/
def viewsOf (s : StateData) : AMap String Value :=
  match mget s "views" with
  | some (Value.vdict m) => m
  | _ => []

/-- The `sessions` namespace of the state tree, as a dict. -/
def sessionsOf (s : StateData) : AMap String Value :=
  match mget s "sessions" with
  | some (Value.vdict m) => m
  | _ => []

/-- A session record's `views` list is well-formed with respect to the
`views` map: no duplicates, and every element is the id of a live view
record whose own `session_id` points back at this session. -/
def SessListOK (vm : AMap String Value) (sid : String) (l : List Value) : Prop :=
  l.Nodup ∧ ∀ x ∈ l, ∃ vid rd, x = Value.vstr vid ∧
    mget vm vid = some (Value.vdict rd) ∧
    mget rd "session_id" = some (Value.vstr sid)

/-- A session record is a dict holding a well-formed `views` list. -/
def SessionRecOK (vm : AMap String Value) (sid : String) (rec : Value) : Prop :=
  ∃ rd l, rec = Value.vdict rd ∧ mget rd "views" = some (Value.vlist l) ∧ SessListOK vm sid l

/-- A view record is a dict whose `session_id` is either `None` or a
nonempty string naming a live session that lists this view. -/
def ViewRecOK (sm : AMap String Value) (vid : String) (rec : Value) : Prop :=
  ∃ rd x, rec = Value.vdict rd ∧ mget rd "session_id" = some x ∧
    (x = Value.vnone ∨ ∃ sid srd l, x = Value.vstr sid ∧ sid ≠ "" ∧
      mget sm sid = some (Value.vdict srd) ∧
      mget srd "views" = some (Value.vlist l) ∧ Value.vstr vid ∈ l)

/-- The inductive invariant for the session/view lifecycle reducers:
both namespaces are dicts, all session records and view records are
well-formed, and the two reference directions agree. -/
def StateOK (s : StateData) : Prop :=
  ∃ vm sm, mget s "views" = some (Value.vdict vm) ∧
    mget s "sessions" = some (Value.vdict sm) ∧
    (∀ sid rec, mget sm sid = some rec → SessionRecOK vm sid rec) ∧
    (∀ vid rec, mget vm vid = some rec → ViewRecOK sm vid rec)

/-- The referential-integrity property as the specification states it:
every view id listed in a session's `views` exists in the `views` map, and
every view record whose `session_id` names an existing session appears in
that session's `views` list. -/
def RefIntegrity (s : StateData) : Prop :=
  (∀ sid rd l vid, mget (sessionsOf s) sid = some (Value.vdict rd) →
     mget rd "views" = some (Value.vlist l) → Value.vstr vid ∈ l →
     (mget (viewsOf s) vid).isSome = true) ∧
  (∀ vid rd sid srd, mget (viewsOf s) vid = some (Value.vdict rd) →
     mget rd "session_id" = some (Value.vstr sid) →
     mget (sessionsOf s) sid = some (Value.vdict srd) →
     ∃ l, mget srd "views" = some (Value.vlist l) ∧ Value.vstr vid ∈ l)

/-- The discipline a `VIEW_CREATED` dispatch must respect for referential
integrity to be preserved: its view id is fresh, and its `session_id` is
absent, `None`, or a nonempty string naming a session that already exists. -/
def VCPre (s : StateData) (p : AMap String Value) : Prop :=
  (∀ vid, idOf p "view_id" = some vid → mget (viewsOf s) vid = Option.none) ∧
  (∀ x, mget p "session_id" = some x → x = Value.vnone ∨
     ∃ sid, x = Value.vstr sid ∧ sid ≠ "" ∧ (mget (sessionsOf s) sid).isSome = true)

/-- A run of lifecycle dispatches: every action is one of `VIEW_CREATED`,
`VIEW_DESTROYED`, `SESSION_CREATED`, and every `VIEW_CREATED` respects the
creation discipline at its point in the run. -/
inductive C2Run : StateStore → List DisIn → StateStore → Prop where
  | nil (st : StateStore) : C2Run st [] st
  | cons (st : StateStore) (i : DisIn) (rest : List DisIn) (stF : StateStore) :
      (i.atype = "VIEW_CREATED" ∨ i.atype = "VIEW_DESTROYED" ∨ i.atype = "SESSION_CREATED") →
      (i.atype = "VIEW_CREATED" → VCPre st.state (i.payload.getD [])) →
      C2Run (dispatch st i.atype i.payload i.source i.now).store rest stF →
      C2Run st (i :: rest) stF

/-- Store-level invariant carried along a lifecycle run: the state tree is
well-formed, no custom reducers are registered, and the reducer tables are
either untouched or the loaded core table. -/
def StoreOKC2 (st : StateStore) : Prop :=
  StateOK st.state ∧ st.custom_reducers = [] ∧
    ((st.core_reducers = [] ∧ st.reducers = []) ∨
     (st.core_reducers = coreReducerTable ∧ st.reducers = coreReducerTable))

/-- The id is truthy but not a key of the `views` map (or the map is
absent): the guard condition of the view reducers' no-op branch. -/
def viewAbsent (s : StateData) (vid : String) : Prop :=
  mget s "views" = Option.none ∨
    ∃ vm, mget s "views" = some (Value.vdict vm) ∧ mget vm vid = Option.none

/-- The id is truthy but not a key of the `sessions` map (or the map is
absent). -/
def sessionAbsent (s : StateData) (sid : String) : Prop :=
  mget s "sessions" = Option.none ∨
    ∃ sm, mget s "sessions" = some (Value.vdict sm) ∧ mget sm sid = Option.none

/-- The action one dispatch input turns into. -/
def dispatchedAction (i : DisIn) : Action :=
  builtAction i.atype i.payload i.source i.now

/-- Reading `state.application.pong`. -/
def appPong (s : StateData) : Option Value :=
  match mget s "application" with
  | some (Value.vdict app) => mget app "pong"
  | _ => Option.none

/-- Modelled from the spec (Scenario C): the host application's custom
`"PING"` reducer, returning the state with `application.pong = true`. The
host code is outside `src/`; the spec fixes only this behaviour. -/
def pingReducer : Reducer := fun _ st =>
  match mget st "application" with
  | some (Value.vdict app) =>
      Except.ok (RRes.newObj (mset st "application" (Value.vdict (mset app "pong" (Value.vbool true)))))
  | _ =>
      Except.ok (RRes.newObj (mset st "application" (Value.vdict [("pong", Value.vbool true)])))

/-- Scenario C, step by step: register the custom reducer, dispatch `PING`,
unregister, dispatch `PING` again. -/
def pingStore1 : StateStore := register_reducer StateStore.init "PING" pingReducer

/-- First `PING` dispatch of Scenario C. -/
def pingDisp1 : DispatchResult := dispatch pingStore1 "PING" Option.none Option.none "t1"

/-- The store after unregistering the custom reducer. -/
def pingStore2 : StateStore := unregister_reducer pingDisp1.store "PING"

/-- Second `PING` dispatch of Scenario C, now without a reducer. -/
def pingDisp2 : DispatchResult := dispatch pingStore2 "PING" Option.none Option.none "t2"

/-- A custom reducer that always raises, for exercising the dispatch error
boundary. -/
def boomReducer : Reducer := fun _ _ => Except.error "boom"

/-- A subscriber that always raises. -/
def boomSubscriber : Subscriber := fun _ _ => Except.error "subscriber boom"

/-- A subscriber that succeeds. -/
def okSubscriber : Subscriber := fun _ _ => Except.ok ()

/-- The cached read `get` performs after its falsy guard: the stored value
under the integer key, if truthy. -/
def cachedSession (m : UIManager) (uid : Int) : Option UISession :=
  match mget m.sessions (some uid) with
  | some (some s) => some s
  | _ => Option.none

/-- Lifecycle dispatch inputs violating referential integrity as stated:
create view `v1` attached to the not-yet-existing session `s1`. -/
def c2badIn1 : DisIn :=
  { atype := "VIEW_CREATED",
    payload := some [("view_id", Value.vstr "v1"), ("session_id", Value.vstr "s1")],
    source := Option.none, now := "t1" }

/-- Then create session `s1`, which starts with an empty `views` list even
though `v1` already points at it. -/
def c2badIn2 : DisIn :=
  { atype := "SESSION_CREATED",
    payload := some [("session_id", Value.vstr "s1")],
    source := Option.none, now := "t2" }

/-- The view record the counterexample run leaves in the `views` map. -/
def c2rec : AMap String Value :=
  [("id", Value.vstr "v1"), ("type", Value.vnone), ("user_id", Value.vnone),
   ("session_id", Value.vstr "s1"), ("created_at", Value.vstr "t1"),
   ("updated_at", Value.vstr "t1"), ("props", Value.vdict []),
   ("message_id", Value.vnone), ("channel_id", Value.vnone)]

/-- The session record the counterexample run leaves in the `sessions` map:
its `views` list is empty although `v1` points at `s1`. -/
def c2srec : AMap String Value :=
  [("id", Value.vstr "s1"), ("user_id", Value.vnone),
   ("created_at", Value.vstr "t2"), ("updated_at", Value.vstr "t2"),
   ("views", Value.vlist []), ("history", Value.vlist []), ("data", Value.vdict [])]

/-- A disciplined lifecycle run: create session `s1` first. -/
def c2goodIn1 : DisIn :=
  { atype := "SESSION_CREATED", payload := some [("session_id", Value.vstr "s1")],
    source := Option.none, now := "t1" }

/-- Then create view `v1` attached to the now-existing `s1`. -/
def c2goodIn2 : DisIn :=
  { atype := "VIEW_CREATED",
    payload := some [("view_id", Value.vstr "v1"), ("session_id", Value.vstr "s1")],
    source := Option.none, now := "t2" }

/-- Then destroy `v1` again. -/
def c2goodIn3 : DisIn :=
  { atype := "VIEW_DESTROYED", payload := some [("view_id", Value.vstr "v1")],
    source := Option.none, now := "t3" }

/-- A view freshly constructed with an interaction from user id `0`. -/
def viewUserZero : ViewInst :=
  { className := "MenuView", interaction := some { user_id := 0, iid := 1 }, is_duplicate := false }

/-- A live view of class `MenuView` held by user 7's session. -/
def menuView7 : ViewInst :=
  { className := "MenuView", interaction := some { user_id := 7, iid := 5 }, is_duplicate := false }

/-- User 7's session holding a live `MenuView`. -/
def session7 : UISession :=
  { uid := 7, views := [menuView7], last_interaction_time := 0, view_history := [] }

/-- A manager whose table holds user 7's session. -/
def manager7 : UIManager :=
  { sessions := [(Option.none, Option.none), (some 7, some session7)], last_cleanup := 0 }

/-- A second `MenuView` freshly constructed for user 7 with a new
interaction, while `menuView7` is still live. -/
def menuViewNew : ViewInst :=
  { className := "MenuView", interaction := some { user_id := 7, iid := 9 }, is_duplicate := false }

/-- A session for user id `0`, constructible like any other. -/
def sessionZero : UISession :=
  { uid := 0, views := [], last_interaction_time := 0, view_history := [] }

/-- A session for user id `0` stored in the table (the result of
`set(UISession(0))`). -/
def managerZero : UIManager :=
  { sessions := [(Option.none, Option.none), (some 0, some sessionZero)], last_cleanup := 0 }

/-- A manager holding one idle session (user 7, last interaction at time 0). -/
def idleManager : UIManager :=
  { sessions := [(Option.none, Option.none),
                 (some 7, some { uid := 7, views := [], last_interaction_time := 0, view_history := [] })],
    last_cleanup := 0 }

/-- The state of C7's concrete instance: session `s1` already exists. -/
def c7state : StateData :=
  [("sessions", Value.vdict [("s1", Value.vdict [("id", Value.vstr "s1")])])]

/-- A second `SESSION_CREATED` action for the already-existing `s1`. -/
def c7action : Action :=
  { atype := "SESSION_CREATED", payload := [("session_id", Value.vstr "s1")],
    source := Option.none, timestamp := "t2" }

/-- A store with two subscribers, the first of which raises. -/
def twoSubStore : StateStore :=
  { StateStore.init with subscribers := [("alpha", boomSubscriber), ("beta", okSubscriber)] }

/-- A `VIEW_UPDATED` action for a view id that does not exist. -/
def c6a : Action :=
  { atype := "VIEW_UPDATED", payload := [("view_id", Value.vstr "zzz")],
    source := Option.none, timestamp := "t" }

/-- A `SESSION_UPDATED` action for a session id that does not exist. -/
def c6b : Action :=
  { atype := "SESSION_UPDATED", payload := [("session_id", Value.vstr "zzz")],
    source := Option.none, timestamp := "t" }

/-- The k-th of a family of dispatch inputs with no registered reducer. -/
def c8in (k : Nat) : DisIn :=
  { atype := "X", payload := Option.none, source := Option.none, now := toString k }

/-- A store with a raising custom reducer registered for `BOOM` and one
healthy subscriber watching. -/
def c3store : StateStore :=
  { register_reducer StateStore.init "BOOM" boomReducer with
      subscribers := [("watcher", okSubscriber)] }

theorem mget_mset_self {kk aa : Type} [DecidableEq kk] (m : AMap kk aa) (k : kk) (v : aa) :
    mget (mset m k v) k = some v := by
  induction m with
  | nil => simp [mset, mget]
  | cons p rest ih =>
    obtain ⟨k0, v0⟩ := p
    by_cases h : k0 = k
    · simp [mset, mget, h]
    · simp [mset, mget, h, ih]

theorem mget_mset_ne {kk aa : Type} [DecidableEq kk] (m : AMap kk aa) (k k2 : kk) (v : aa)
    (h : k2 ≠ k) : mget (mset m k v) k2 = mget m k2 := by
  have h' : k ≠ k2 := Ne.symm h
  induction m with
  | nil => simp [mset, mget, h']
  | cons p rest ih =>
    obtain ⟨k0, v0⟩ := p
    by_cases hk : k0 = k
    · subst hk
      simp [mset, mget, h']
    · simp [mset, mget, hk, ih]

theorem mget_mdel_self {kk aa : Type} [DecidableEq kk] (m : AMap kk aa) (k : kk) :
    mget (mdel m k) k = Option.none := by
  induction m with
  | nil => simp [mdel, mget]
  | cons p rest ih =>
    obtain ⟨k0, v0⟩ := p
    by_cases h : k0 = k
    · simp [mdel, mget, h, ih]
    · simp [mdel, mget, h, ih]

theorem mget_mdel_ne {kk aa : Type} [DecidableEq kk] (m : AMap kk aa) (k k2 : kk)
    (h : k2 ≠ k) : mget (mdel m k) k2 = mget m k2 := by
  have h' : k ≠ k2 := Ne.symm h
  induction m with
  | nil => simp [mdel, mget]
  | cons p rest ih =>
    obtain ⟨k0, v0⟩ := p
    by_cases hk : k0 = k
    · subst hk
      simp [mdel, mget, h', ih]
    · simp [mdel, mget, hk, ih]

theorem mem_of_mget_eq_some {kk aa : Type} [DecidableEq kk] {m : AMap kk aa} {k : kk} {v : aa}
    (h : mget m k = some v) : (k, v) ∈ m := by
  induction m with
  | nil => simp [mget] at h
  | cons p rest ih =>
    obtain ⟨k0, v0⟩ := p
    by_cases hk : k0 = k
    · subst hk
      simp [mget] at h
      subst h
      exact List.mem_cons_self _ _
    · simp only [mget, if_neg hk] at h
      exact List.mem_cons_of_mem _ (ih h)

theorem mget_eq_some_of_mem_nodup {kk aa : Type} [DecidableEq kk] {m : AMap kk aa} {k : kk} {v : aa}
    (hn : (m.map Prod.fst).Nodup) (hm : (k, v) ∈ m) : mget m k = some v := by
  induction m with
  | nil => simp at hm
  | cons p rest ih =>
    obtain ⟨k0, v0⟩ := p
    simp only [List.map_cons, List.nodup_cons] at hn
    rcases List.mem_cons.mp hm with hh | ht
    · injection hh with h1 h2
      subst h1
      subst h2
      simp [mget]
    · have hk : k0 ≠ k := by
        rintro rfl
        exact hn.1 (List.mem_map_of_mem Prod.fst ht)
      simp only [mget, if_neg hk]
      exact ih hn.2 ht

theorem lhasStr_true_of_mem {l : List Value} {s : String} (h : Value.vstr s ∈ l) :
    lhasStr l s = true := by
  simp only [lhasStr, List.any_eq_true]
  exact ⟨Value.vstr s, h, by simp⟩

theorem mem_of_lhasStr {l : List Value} {s : String} (h : lhasStr l s = true) :
    Value.vstr s ∈ l := by
  simp only [lhasStr, List.any_eq_true] at h
  obtain ⟨v, hv, he⟩ := h
  cases v with
  | vstr t =>
    have ht : t = s := by simpa using he
    subst ht
    exact hv
  | vnone => simp at he
  | vbool b => simp at he
  | vint n => simp at he
  | vlist xs => simp at he
  | vdict mm => simp at he

theorem lremoveStr_sublist (l : List Value) (s : String) : (lremoveStr l s).Sublist l := by
  induction l with
  | nil => exact List.Sublist.refl _
  | cons x rest ih =>
    cases x with
    | vstr t =>
      by_cases h : t = s
      · simp only [lremoveStr, if_pos h]
        exact List.sublist_cons_self _ _
      · simp only [lremoveStr, if_neg h]
        exact List.Sublist.cons₂ _ ih
    | vnone =>
      simp only [lremoveStr]
      exact List.Sublist.cons₂ _ ih
    | vbool b =>
      simp only [lremoveStr]
      exact List.Sublist.cons₂ _ ih
    | vint n =>
      simp only [lremoveStr]
      exact List.Sublist.cons₂ _ ih
    | vlist xs =>
      simp only [lremoveStr]
      exact List.Sublist.cons₂ _ ih
    | vdict mm =>
      simp only [lremoveStr]
      exact List.Sublist.cons₂ _ ih

theorem mem_lremoveStr_of_ne {x : Value} {s : String} (hne : x ≠ Value.vstr s) :
    ∀ l : List Value, x ∈ l → x ∈ lremoveStr l s := by
  intro l
  induction l with
  | nil => intro hx; simp at hx
  | cons y rest ih =>
    intro hx
    rcases List.mem_cons.mp hx with rfl | ht
    · cases x with
      | vstr t =>
        have h : ¬ t = s := fun hh => hne (by rw [hh])
        simp only [lremoveStr, if_neg h]
        exact List.mem_cons_self _ _
      | vnone =>
        simp only [lremoveStr]
        exact List.mem_cons_self _ _
      | vbool b =>
        simp only [lremoveStr]
        exact List.mem_cons_self _ _
      | vint n =>
        simp only [lremoveStr]
        exact List.mem_cons_self _ _
      | vlist xs =>
        simp only [lremoveStr]
        exact List.mem_cons_self _ _
      | vdict mm =>
        simp only [lremoveStr]
        exact List.mem_cons_self _ _
    · cases y with
      | vstr t =>
        by_cases h : t = s
        · simp only [lremoveStr, if_pos h]
          exact ht
        · simp only [lremoveStr, if_neg h]
          exact List.mem_cons_of_mem _ (ih ht)
      | vnone =>
        simp only [lremoveStr]
        exact List.mem_cons_of_mem _ (ih ht)
      | vbool b =>
        simp only [lremoveStr]
        exact List.mem_cons_of_mem _ (ih ht)
      | vint n =>
        simp only [lremoveStr]
        exact List.mem_cons_of_mem _ (ih ht)
      | vlist xs =>
        simp only [lremoveStr]
        exact List.mem_cons_of_mem _ (ih ht)
      | vdict mm =>
        simp only [lremoveStr]
        exact List.mem_cons_of_mem _ (ih ht)

theorem not_mem_lremoveStr {s : String} :
    ∀ l : List Value, l.Nodup → Value.vstr s ∉ lremoveStr l s := by
  intro l
  induction l with
  | nil => intro _ hmem; simp [lremoveStr] at hmem
  | cons y rest ih =>
    intro hn
    obtain ⟨hy, hrest⟩ := List.nodup_cons.mp hn
    cases y with
    | vstr t =>
      by_cases h : t = s
      · subst h
        simp only [lremoveStr, if_pos rfl]
        exact hy
      · simp only [lremoveStr, if_neg h]
        intro hmem
        rcases List.mem_cons.mp hmem with he | hm
        · exact h (Value.vstr.inj he).symm
        · exact ih hrest hm
    | vnone =>
      simp only [lremoveStr]
      intro hmem
      rcases List.mem_cons.mp hmem with he | hm
      · exact Value.noConfusion he
      · exact ih hrest hm
    | vbool b =>
      simp only [lremoveStr]
      intro hmem
      rcases List.mem_cons.mp hmem with he | hm
      · exact Value.noConfusion he
      · exact ih hrest hm
    | vint n =>
      simp only [lremoveStr]
      intro hmem
      rcases List.mem_cons.mp hmem with he | hm
      · exact Value.noConfusion he
      · exact ih hrest hm
    | vlist xs =>
      simp only [lremoveStr]
      intro hmem
      rcases List.mem_cons.mp hmem with he | hm
      · exact Value.noConfusion he
      · exact ih hrest hm
    | vdict mm =>
      simp only [lremoveStr]
      intro hmem
      rcases List.mem_cons.mp hmem with he | hm
      · exact Value.noConfusion he
      · exact ih hrest hm

theorem except_pure_eq {ee aa : Type} (x : aa) : (pure x : Except ee aa) = Except.ok x := rfl

theorem except_bind_ok {ee aa bb : Type} (x : aa) (f : aa → Except ee bb) :
    (Except.ok x : Except ee aa) >>= f = f x := rfl

theorem load_core_state (st : StateStore) : (load_core_reducers st).state = st.state := by
  by_cases hc : st.core_reducers.isEmpty <;> simp [load_core_reducers, hc]

theorem load_core_subs (st : StateStore) :
    (load_core_reducers st).subscribers = st.subscribers := by
  by_cases hc : st.core_reducers.isEmpty <;> simp [load_core_reducers, hc]

theorem load_core_custom (st : StateStore) :
    (load_core_reducers st).custom_reducers = st.custom_reducers := by
  by_cases hc : st.core_reducers.isEmpty <;> simp [load_core_reducers, hc]

theorem load_core_limit (st : StateStore) :
    (load_core_reducers st).history_limit = st.history_limit := by
  by_cases hc : st.core_reducers.isEmpty <;> simp [load_core_reducers, hc]

theorem load_core_hist_comm (st : StateStore) (h : List Action) :
    load_core_reducers { st with history := h } = { load_core_reducers st with history := h } := by
  by_cases hc : st.core_reducers.isEmpty <;> simp [load_core_reducers, hc]

theorem dispatch_result_eq (st : StateStore) (atype : String)
    (payload : Option (AMap String Value)) (src : Option String) (now : String) :
    (dispatch st atype payload src now).result =
      (match mget (load_core_reducers st).reducers atype with
       | some r =>
         match r (builtAction atype payload src now) st.state with
         | Except.ok rr => RRes.result st.state rr
         | Except.error _ => st.state
       | Option.none => st.state) := by
  simp [dispatch, load_core_hist_comm, load_core_state]

theorem dispatch_store_state_eq (st : StateStore) (atype : String)
    (payload : Option (AMap String Value)) (src : Option String) (now : String) :
    (dispatch st atype payload src now).store.state = (dispatch st atype payload src now).result := rfl

theorem dispatch_notified_eq (st : StateStore) (atype : String)
    (payload : Option (AMap String Value)) (src : Option String) (now : String) :
    (dispatch st atype payload src now).notified =
      notifySubscribers st.subscribers (dispatch st atype payload src now).result
        (builtAction atype payload src now) := by
  simp [dispatch, load_core_hist_comm, load_core_subs]

theorem dispatch_store_history_eq (st : StateStore) (atype : String)
    (payload : Option (AMap String Value)) (src : Option String) (now : String) :
    (dispatch st atype payload src now).store.history =
      stepHist st.history_limit st.history (builtAction atype payload src now) := by
  simp [dispatch, load_core_hist_comm]

theorem dispatch_store_limit_eq (st : StateStore) (atype : String)
    (payload : Option (AMap String Value)) (src : Option String) (now : String) :
    (dispatch st atype payload src now).store.history_limit = st.history_limit := by
  simp [dispatch, load_core_hist_comm, load_core_limit]

theorem dispatch_store_subs_eq (st : StateStore) (atype : String)
    (payload : Option (AMap String Value)) (src : Option String) (now : String) :
    (dispatch st atype payload src now).store.subscribers = st.subscribers := by
  simp [dispatch, load_core_hist_comm, load_core_subs]

theorem dispatch_store_custom_eq (st : StateStore) (atype : String)
    (payload : Option (AMap String Value)) (src : Option String) (now : String) :
    (dispatch st atype payload src now).store.custom_reducers = st.custom_reducers := by
  simp [dispatch, load_core_hist_comm, load_core_custom]

theorem dispatch_store_core_eq (st : StateStore) (atype : String)
    (payload : Option (AMap String Value)) (src : Option String) (now : String) :
    (dispatch st atype payload src now).store.core_reducers =
      (load_core_reducers st).core_reducers := by
  simp [dispatch, load_core_hist_comm]

theorem dispatch_store_reducers_eq (st : StateStore) (atype : String)
    (payload : Option (AMap String Value)) (src : Option String) (now : String) :
    (dispatch st atype payload src now).store.reducers = (load_core_reducers st).reducers := by
  simp [dispatch, load_core_hist_comm]

theorem mem_notifySubscribers (subs : AMap String Subscriber) (st : StateData) (a : Action)
    (ha : a.skip_self_notify = false) (p : String × Subscriber) (hp : p ∈ subs) :
    (p.1, p.2 st a) ∈ notifySubscribers subs st a := by
  simp only [notifySubscribers]
  exact List.mem_filterMap.mpr ⟨p, hp, by simp [ha]⟩

/-- C6: for every state whose `views` (resp. `sessions`) container is absent
or lacks the given truthy id, `reduce_view_updated`, `reduce_view_destroyed`
and `reduce_session_updated` are no-ops returning the caller's own state
object by reference (the source's `return state`, modelled as
`RRes.sameRef`), and raise nothing. -/
theorem c6_reducer_noop_on_absent (a : Action) (s : StateData) (vid sid : String) :
    (idOf a.payload "view_id" = some vid → viewAbsent s vid →
      reduce_view_updatedR a s = Except.ok RRes.sameRef ∧
      reduce_view_destroyedR a s = Except.ok RRes.sameRef) ∧
    (idOf a.payload "session_id" = some sid → sessionAbsent s sid →
      reduce_session_updatedR a s = Except.ok RRes.sameRef) := by
  constructor
  · intro hid habs
    constructor
    · rcases habs with h | ⟨vm, hv, hvm⟩
      · simp [reduce_view_updatedR, hid, h, except_pure_eq]
      · simp [reduce_view_updatedR, hid, hv, hvm, except_pure_eq]
    · rcases habs with h | ⟨vm, hv, hvm⟩
      · simp [reduce_view_destroyedR, hid, h, except_pure_eq]
      · simp [reduce_view_destroyedR, hid, hv, hvm, except_pure_eq]
  · intro hid habs
    rcases habs with h | ⟨sm, hs, hsm⟩
    · simp [reduce_session_updatedR, hid, h, except_pure_eq]
    · simp [reduce_session_updatedR, hid, hs, hsm, except_pure_eq]

/-- C6 witness: at the store's initial state, updating or destroying the
non-existent view `zzz`, and updating the non-existent session `zzz`, all
return the state by reference. -/
theorem c6_witness :
    reduce_view_updatedR c6a StateStore.init.state = Except.ok RRes.sameRef ∧
    reduce_view_destroyedR c6a StateStore.init.state = Except.ok RRes.sameRef ∧
    reduce_session_updatedR c6b StateStore.init.state = Except.ok RRes.sameRef := by
  obtain ⟨h1, _⟩ := c6_reducer_noop_on_absent c6a StateStore.init.state "zzz" "zzz"
  obtain ⟨hv, hd⟩ := h1 (by rfl) (Or.inr ⟨[], rfl, rfl⟩)
  obtain ⟨_, h2⟩ := c6_reducer_noop_on_absent c6b StateStore.init.state "zzz" "zzz"
  exact ⟨hv, hd, h2 (by rfl) (Or.inr ⟨[], rfl, rfl⟩)⟩

/-- C7 (amended): when the session id already exists, `reduce_session_created`
creates nothing and leaves the session map unchanged — but it returns the
`copy.deepcopy`-derived object (`RRes.newObj` with value exactly the input
state), not the original state object by reference. -/
theorem c7_session_created_existing_copy (a : Action) (s : StateData) (sid : String)
    (sm : AMap String Value)
    (hid : idOf a.payload "session_id" = some sid)
    (hs : mget s "sessions" = some (Value.vdict sm))
    (hmem : mhas sm sid = true) :
    reduce_session_createdR a s = Except.ok (RRes.newObj s) := by
  simp [reduce_session_createdR, hid, hs, hmem, except_pure_eq]

/-- C7 witness: the concrete second `SESSION_CREATED` for the existing
session `s1` returns a value-identical fresh copy. -/
theorem c7_witness : reduce_session_createdR c7action c7state = Except.ok (RRes.newObj c7state) :=
  c7_session_created_existing_copy c7action c7state "s1"
    [("s1", Value.vdict [("id", Value.vstr "s1")])] (by rfl) (by rfl) (by rfl)

/-- C7 counterexample: at the same concrete input the reducer's result is
`RRes.newObj` — a fresh object — and in particular not the reference-identity
no-op (`RRes.sameRef`) the claim asserts. -/
theorem c7_counterexample :
    reduce_session_createdR c7action c7state = Except.ok (RRes.newObj c7state) ∧
    reduce_session_createdR c7action c7state ≠ Except.ok RRes.sameRef := by
  constructor
  · rfl
  · intro h
    rw [show reduce_session_createdR c7action c7state = Except.ok (RRes.newObj c7state) from rfl] at h
    exact RRes.noConfusion (Except.ok.inj h)

/-- C3: when the looked-up reducer raises, dispatch swallows the exception —
the store's state keeps its exact pre-reducer value, the dispatch returns
that unchanged state, and every subscriber is still notified. -/
theorem c3_reducer_error_no_change (st : StateStore) (atype : String)
    (payload : Option (AMap String Value)) (src : Option String) (now : String)
    (r : Reducer) (e : String)
    (hr : mget (load_core_reducers st).reducers atype = some r)
    (he : r (builtAction atype payload src now) st.state = Except.error e) :
    (dispatch st atype payload src now).result = st.state ∧
    (dispatch st atype payload src now).store.state = st.state ∧
    ∀ p : String × Subscriber, p ∈ st.subscribers →
      (p.1, p.2 st.state (builtAction atype payload src now)) ∈
        (dispatch st atype payload src now).notified := by
  have hres : (dispatch st atype payload src now).result = st.state := by
    rw [dispatch_result_eq, hr]
    simp [he]
  refine ⟨hres, by rw [dispatch_store_state_eq]; exact hres, ?_⟩
  intro p hp
  rw [dispatch_notified_eq, hres]
  exact mem_notifySubscribers st.subscribers st.state (builtAction atype payload src now) rfl p hp

/-- C3 witness: the raising `BOOM` reducer leaves the concrete store's state
untouched, dispatch returns it, and the watching subscriber is notified. -/
theorem c3_witness :
    (dispatch c3store "BOOM" Option.none Option.none "t").result = c3store.state ∧
    ("watcher", okSubscriber c3store.state (builtAction "BOOM" Option.none Option.none "t")) ∈
      (dispatch c3store "BOOM" Option.none Option.none "t").notified := by
  obtain ⟨h1, _, h3⟩ :=
    c3_reducer_error_no_change c3store "BOOM" Option.none Option.none "t" boomReducer "boom"
      (by rfl) (by rfl)
  exact ⟨h1, h3 ("watcher", okSubscriber) (List.mem_cons_self _ _)⟩

/-- C4: when no reducer is registered for the action type, dispatch completes
(it is a total function in this model — nothing is raised), leaves the
store's state unchanged and returns that state; and, as in Scenario C,
registering a `PING` reducer that sets `application.pong`, dispatching,
unregistering and dispatching `PING` again leaves `application.pong` equal
to `true` — the reducerless dispatch does not reset state. -/
theorem c4_no_reducer_no_change (st : StateStore) (atype : String)
    (payload : Option (AMap String Value)) (src : Option String) (now : String)
    (hr : mget (load_core_reducers st).reducers atype = Option.none) :
    ((dispatch st atype payload src now).result = st.state ∧
     (dispatch st atype payload src now).store.state = st.state) ∧
    (appPong pingDisp1.result = some (Value.vbool true) ∧
     pingDisp2.result = pingDisp1.result ∧
     appPong pingDisp2.result = some (Value.vbool true)) := by
  constructor
  · have hres : (dispatch st atype payload src now).result = st.state := by
      rw [dispatch_result_eq, hr]
    exact ⟨hres, by rw [dispatch_store_state_eq]; exact hres⟩
  · exact ⟨by rfl, by rfl, by rfl⟩

/-- C4 witness: after Scenario C's unregistration, dispatching `PING` again
returns the store's state unchanged. -/
theorem c4_witness :
    (dispatch pingStore2 "PING" Option.none Option.none "t2").result = pingStore2.state :=
  ((c4_no_reducer_no_change pingStore2 "PING" Option.none Option.none "t2" (by rfl)).1).1

theorem load_core_subs_comm (st : StateStore) (subs : AMap String Subscriber) :
    load_core_reducers { st with subscribers := subs } =
      { load_core_reducers st with subscribers := subs } := by
  by_cases hc : st.core_reducers.isEmpty <;> simp [load_core_reducers, hc]

theorem mem_notify_mset_iff (subs : AMap String Subscriber) (sid : String)
    (cb1 cb2 : Subscriber) (st : StateData) (a : Action) (x : String × Except String Unit)
    (hx : x.1 ≠ sid) :
    x ∈ notifySubscribers (mset subs sid cb1) st a ↔
      x ∈ notifySubscribers (mset subs sid cb2) st a := by
  induction subs with
  | nil =>
    by_cases hskip : a.source = some sid ∧ a.skip_self_notify
    · simp [notifySubscribers, mset, hskip]
    · have h1 : x ≠ (sid, cb1 st a) := fun hh => hx (by rw [hh])
      have h2 : x ≠ (sid, cb2 st a) := fun hh => hx (by rw [hh])
      simp [notifySubscribers, mset, hskip, h1, h2]
  | cons p rest ih =>
    obtain ⟨k0, v0⟩ := p
    by_cases hk : k0 = sid
    · subst hk
      by_cases hskip : a.source = some k0 ∧ a.skip_self_notify
      · simp [notifySubscribers, mset, hskip]
      · have h1 : x ≠ (k0, cb1 st a) := fun hh => hx (by rw [hh])
        have h2 : x ≠ (k0, cb2 st a) := fun hh => hx (by rw [hh])
        simp [notifySubscribers, mset, hskip, h1, h2]
    · simp only [notifySubscribers, mset, if_neg hk] at ih ⊢
      by_cases hskip : a.source = some k0 ∧ a.skip_self_notify
      · simpa [List.filterMap_cons, hskip] using ih
      · simp only [List.filterMap_cons, if_neg hskip, List.mem_cons]
        exact or_congr Iff.rfl ih

/-- C5: every registered subscriber is invoked through the isolating wrapper
— its entry appears in the notification record with its own outcome — the
subscribers play no part in the state dispatch returns, and replacing one
subscriber's callback (for instance by one that raises) changes no other
subscriber's notification. -/
theorem c5_subscriber_isolation (st : StateStore) (atype : String)
    (payload : Option (AMap String Value)) (src : Option String) (now : String) :
    (∀ p : String × Subscriber, p ∈ st.subscribers →
       (p.1, p.2 (dispatch st atype payload src now).result (builtAction atype payload src now)) ∈
         (dispatch st atype payload src now).notified) ∧
    (∀ subs2 : AMap String Subscriber,
       (dispatch { st with subscribers := subs2 } atype payload src now).result =
         (dispatch st atype payload src now).result) ∧
    (∀ (sid : String) (cb1 cb2 : Subscriber) (x : String × Except String Unit), x.1 ≠ sid →
       ((x ∈ (dispatch { st with subscribers := mset st.subscribers sid cb1 } atype payload src now).notified) ↔
        (x ∈ (dispatch { st with subscribers := mset st.subscribers sid cb2 } atype payload src now).notified))) := by
  have hsubs : ∀ subs2 : AMap String Subscriber,
      (dispatch { st with subscribers := subs2 } atype payload src now).result =
        (dispatch st atype payload src now).result := by
    intro subs2
    simp [dispatch_result_eq, load_core_subs_comm]
  refine ⟨?_, hsubs, ?_⟩
  · intro p hp
    rw [dispatch_notified_eq]
    exact mem_notifySubscribers st.subscribers (dispatch st atype payload src now).result
      (builtAction atype payload src now) rfl p hp
  · intro sid cb1 cb2 x hx
    have e1 : (dispatch { st with subscribers := mset st.subscribers sid cb1 } atype payload src now).notified =
        notifySubscribers (mset st.subscribers sid cb1)
          (dispatch st atype payload src now).result (builtAction atype payload src now) := by
      rw [dispatch_notified_eq, hsubs]
    have e2 : (dispatch { st with subscribers := mset st.subscribers sid cb2 } atype payload src now).notified =
        notifySubscribers (mset st.subscribers sid cb2)
          (dispatch st atype payload src now).result (builtAction atype payload src now) := by
      rw [dispatch_notified_eq, hsubs]
    rw [e1, e2]
    exact mem_notify_mset_iff st.subscribers sid cb1 cb2
      (dispatch st atype payload src now).result (builtAction atype payload src now) x hx

/-- C5 witness: with two concrete subscribers, the raising one and the
healthy one are both notified — each with its own outcome — and removing all
subscribers does not change the state dispatch returns. -/
theorem c5_witness :
    ("alpha", (Except.error "subscriber boom" : Except String Unit)) ∈
      (dispatch twoSubStore "X" Option.none Option.none "t").notified ∧
    ("beta", (Except.ok () : Except String Unit)) ∈
      (dispatch twoSubStore "X" Option.none Option.none "t").notified ∧
    (dispatch twoSubStore "X" Option.none Option.none "t").result =
      (dispatch { twoSubStore with subscribers := [] } "X" Option.none Option.none "t").result := by
  obtain ⟨h1, h2, _⟩ := c5_subscriber_isolation twoSubStore "X" Option.none Option.none "t"
  refine ⟨h1 ("alpha", boomSubscriber) (List.mem_cons_self _ _),
          h1 ("beta", okSubscriber) (List.mem_cons_of_mem _ (List.mem_cons_self _ _)),
          (h2 []).symm⟩

theorem foldl_stepHist (L : Nat) (as : List Action) :
    ∀ h : List Action, h.length ≤ L →
      as.foldl (stepHist L) h = (h ++ as).drop (h.length + as.length - L) := by
  induction as with
  | nil =>
    intro h hle
    simp only [List.foldl_nil, List.append_nil, List.length_nil, Nat.add_zero]
    have h0 : h.length - L = 0 := by omega
    simp [h0]
  | cons a rest ih =>
    intro h hle
    simp only [List.foldl_cons]
    have hlen1 : (h ++ [a]).length = h.length + 1 := by
      simp
    by_cases hcase : h.length + 1 > L
    · have hstep : stepHist L h a = (h ++ [a]).drop 1 := by
        simp only [stepHist]
        rw [if_pos (by rw [hlen1]; omega)]
      have hle2 : ((h ++ [a]).drop 1).length ≤ L := by
        rw [List.length_drop, hlen1]; omega
      rw [hstep, ih _ hle2]
      rw [← List.drop_append_of_le_length (show 1 ≤ (h ++ [a]).length by rw [hlen1]; omega)]
      rw [List.drop_drop]
      have e1 : (h ++ [a]) ++ rest = h ++ a :: rest := by simp
      rw [e1]
      congr 1
      rw [List.length_drop, hlen1]
      simp only [List.length_cons]
      omega
    · have hstep : stepHist L h a = h ++ [a] := by
        simp only [stepHist]
        rw [if_neg (by rw [hlen1]; omega)]
      rw [hstep, ih _ (by rw [hlen1]; omega)]
      have e1 : (h ++ [a]) ++ rest = h ++ a :: rest := by simp
      rw [e1]
      congr 1
      rw [hlen1]
      simp only [List.length_cons]
      omega

theorem runDispatches_history (ins : List DisIn) :
    ∀ st : StateStore,
      (runDispatches st ins).history =
        (ins.map dispatchedAction).foldl (stepHist st.history_limit) st.history ∧
      (runDispatches st ins).history_limit = st.history_limit := by
  induction ins with
  | nil => intro st; simp [runDispatches]
  | cons i rest ih =>
    intro st
    obtain ⟨h1, h2⟩ := ih (dispatch st i.atype i.payload i.source i.now).store
    have hrun : runDispatches st (i :: rest) =
        runDispatches (dispatch st i.atype i.payload i.source i.now).store rest := by
      simp [runDispatches]
    rw [hrun]
    constructor
    · rw [h1, dispatch_store_history_eq, dispatch_store_limit_eq]
      simp [dispatchedAction]
    · rw [h2, dispatch_store_limit_eq]

/-- C8: after N dispatches against a fresh store, the history is exactly the
most recent 100 dispatched actions in dispatch order (the oldest evicted
first); its length is 100 when N exceeds 100 and N otherwise. -/
theorem c8_history_bound (ins : List DisIn) :
    (runDispatches StateStore.init ins).history =
      (ins.map dispatchedAction).drop (ins.length - 100) ∧
    (ins.length > 100 → (runDispatches StateStore.init ins).history.length = 100) ∧
    (ins.length ≤ 100 → (runDispatches StateStore.init ins).history.length = ins.length) := by
  obtain ⟨h1, _⟩ := runDispatches_history ins StateStore.init
  have hfold := foldl_stepHist 100 (ins.map dispatchedAction) [] (by simp)
  have hh : (runDispatches StateStore.init ins).history =
      (ins.map dispatchedAction).drop (ins.length - 100) := by
    rw [h1]
    show (ins.map dispatchedAction).foldl (stepHist 100) [] = _
    rw [hfold]
    simp
  refine ⟨hh, ?_, ?_⟩
  · intro hgt
    rw [hh]
    simp only [List.length_drop, List.length_map]
    omega
  · intro hle
    rw [hh]
    simp only [List.length_drop, List.length_map]
    omega

/-- C8 witness: with 101 dispatches the history holds exactly 100 actions. -/
theorem c8_witness :
    ((List.range 101).map c8in).length > 100 ∧
    (runDispatches StateStore.init ((List.range 101).map c8in)).history.length = 100 := by
  constructor
  · simp
  · exact (c8_history_bound _).2.1 (by simp)

theorem uiget_nonzero (m : UIManager) (uid : Int) (hz : uid ≠ 0) :
    m.get (SessArg.userId uid) = Except.ok (cachedSession m uid) := by
  have hb : (uid == 0) = false := by simpa using hz
  simp only [UIManager.get, sessArgFalsy, hb, Bool.false_eq_true, if_false, sessArgUid]
  unfold cachedSession
  cases hmm : mget m.sessions (some uid) with
  | none => rfl
  | some v =>
    cases v with
    | none => rfl
    | some s => rfl

/-- C1 (amended): `check_for_existing_view` returns `None` when the view has
no attached interaction; for an interaction from a user with nonzero id it
returns `None` — leaving the new view untouched and non-duplicate — when the
user has no live session or the session holds no instance of the same class,
and otherwise adopts the new interaction onto the existing same-class
instance inside the session, flags the new instance `_is_duplicate = True`,
and returns the (updated) existing instance; the constructor fragment
reaches the interaction-handling path exactly when the instance was not
flagged as a duplicate. (For user id `0` the lookup raises `TypeError`
instead — see the counterexample.) -/
theorem c1_dedup_check (m : UIManager) (view : ViewInst) (inter : Interaction) (cls : String) :
    (view.interaction = Option.none →
       m.check_for_existing_view view = Except.ok (m, view, Option.none)) ∧
    (view.interaction = some inter → inter.user_id ≠ 0 →
       ((cachedSession m inter.user_id = Option.none →
           m.check_for_existing_view view = Except.ok (m, view, Option.none)) ∧
        (∀ sess : UISession, cachedSession m inter.user_id = some sess →
           findSameClass sess.views view.className = Option.none →
           m.check_for_existing_view view = Except.ok (m, view, Option.none)) ∧
        (∀ (sess : UISession) (ev : ViewInst), cachedSession m inter.user_id = some sess →
           findSameClass sess.views view.className = some ev →
           m.check_for_existing_view view =
             Except.ok
               ({ m with sessions := (mset m.sessions (some inter.user_id)
                   (some { sess with views := (replaceSameClass sess.views view.className
                       { ev with interaction := some inter }) })) },
                { view with is_duplicate := true },
                some { ev with interaction := some inter })))) ∧
    (∀ r : InitResult, cascadeViewInit m cls (some inter) = Except.ok r →
       (r.view.is_duplicate = true → r.handler_triggered = false) ∧
       (r.view.is_duplicate = false → r.handler_triggered = true)) := by
  refine ⟨?_, ?_, ?_⟩
  · intro h
    simp [UIManager.check_for_existing_view, h]
  · intro hi hz
    have hget := uiget_nonzero m inter.user_id hz
    refine ⟨?_, ?_, ?_⟩
    · intro hc
      rw [hc] at hget
      simp [UIManager.check_for_existing_view, hi, hget, except_pure_eq, except_bind_ok]
    · intro sess hc hfind
      rw [hc] at hget
      simp [UIManager.check_for_existing_view, hi, hget, hfind, except_pure_eq, except_bind_ok]
    · intro sess ev hc hfind
      rw [hc] at hget
      simp [UIManager.check_for_existing_view, hi, hget, hfind, except_pure_eq, except_bind_ok]
  · intro r hr
    cases hc : m.check_for_existing_view
        { className := cls, interaction := some inter, is_duplicate := false } with
    | error e =>
      rw [show cascadeViewInit m cls (some inter) =
            Except.bind (m.check_for_existing_view
              { className := cls, interaction := some inter, is_duplicate := false })
              (fun rr => match rr with
                | (m2, view2, existing) =>
                  if view2.is_duplicate then
                    Except.ok { manager := m2, view := view2, existing := existing,
                                handler_triggered := false }
                  else
                    Except.ok { manager := m2, view := view2, existing := existing,
                                handler_triggered := true }) from rfl, hc] at hr
      exact Except.noConfusion hr
    | ok trip =>
      obtain ⟨m2, view2, ex⟩ := trip
      rw [show cascadeViewInit m cls (some inter) =
            Except.bind (m.check_for_existing_view
              { className := cls, interaction := some inter, is_duplicate := false })
              (fun rr => match rr with
                | (m2, view2, existing) =>
                  if view2.is_duplicate then
                    Except.ok { manager := m2, view := view2, existing := existing,
                                handler_triggered := false }
                  else
                    Except.ok { manager := m2, view := view2, existing := existing,
                                handler_triggered := true }) from rfl, hc] at hr
      by_cases hd : view2.is_duplicate
      · simp [hd, Except.bind] at hr
        constructor
        · intro _
          rw [← hr]
        · intro hnd
          rw [← hr] at hnd
          simp [hd] at hnd
      · simp [hd, Except.bind] at hr
        constructor
        · intro hdup
          rw [← hr] at hdup
          simp at hdup
          exact absurd hdup hd
        · intro _
          rw [← hr]

/-- C1 counterexample: for a view carrying an interaction from user id `0`
with no session anywhere, the claim says the check returns `None` and the
view stays non-duplicate; the code instead raises `TypeError` out of the
session lookup, because `0` is falsy. -/
theorem c1_counterexample :
    UIManager.check_for_existing_view (UIManager.fresh 0) viewUserZero =
      Except.error "TypeError: Parameter session required" := by rfl

/-- C1 witness: constructing a second `MenuView` for user 7 while one is
live adopts the new interaction onto the existing instance, flags the new
one as a duplicate, and returns the existing instance. -/
theorem c1_witness :
    UIManager.check_for_existing_view manager7 menuViewNew =
      Except.ok
        ({ manager7 with sessions := (mset manager7.sessions (some 7)
            (some { session7 with views := (replaceSameClass session7.views "MenuView"
                { menuView7 with interaction := some { user_id := 7, iid := 9 } }) })) },
         { menuViewNew with is_duplicate := true },
         some { menuView7 with interaction := some { user_id := 7, iid := 9 } }) := by
  obtain ⟨_, h2, _⟩ := c1_dedup_check manager7 menuViewNew { user_id := 7, iid := 9 } "MenuView"
  obtain ⟨_, _, hadopt⟩ := h2 (by rfl) (by decide)
  exact hadopt session7 menuView7 (by rfl) (by rfl)

theorem mem_staleUids_of (sessions : AMap (Option Int) (Option UISession)) (now maxAge : Int)
    (uid : Int) (sess : UISession) (h : (some uid, some sess) ∈ sessions)
    (hst : now - sess.last_interaction_time > maxAge * 60) :
    uid ∈ staleUids sessions now maxAge :=
  List.mem_filterMap.mpr ⟨(some uid, some sess), h, by simp [hst]⟩

theorem of_mem_staleUids {sessions : AMap (Option Int) (Option UISession)} {now maxAge : Int}
    {uid : Int} (h : uid ∈ staleUids sessions now maxAge) :
    ∃ sess : UISession, (some uid, some sess) ∈ sessions ∧
      now - sess.last_interaction_time > maxAge * 60 := by
  obtain ⟨p, hp, he⟩ := List.mem_filterMap.mp h
  obtain ⟨k, v⟩ := p
  cases k with
  | none => simp at he
  | some u =>
    cases v with
    | none => simp at he
    | some s =>
      by_cases hst : now - s.last_interaction_time > maxAge * 60
      · simp only [hst, if_pos hst] at he
        simp at he
        subst he
        exact ⟨s, hp, hst⟩
      · simp [hst] at he

theorem staleUids_nodup (sessions : AMap (Option Int) (Option UISession)) (now maxAge : Int)
    (hn : (sessions.map Prod.fst).Nodup) : (staleUids sessions now maxAge).Nodup := by
  induction sessions with
  | nil => simp [staleUids]
  | cons p rest ih =>
    obtain ⟨k, v⟩ := p
    simp only [List.map_cons, List.nodup_cons] at hn
    cases k with
    | none => simpa [staleUids, List.filterMap_cons] using ih hn.2
    | some u =>
      cases v with
      | none => simpa [staleUids, List.filterMap_cons] using ih hn.2
      | some s =>
        by_cases hst : now - s.last_interaction_time > maxAge * 60
        · have hlist : staleUids ((some u, some s) :: rest) now maxAge =
              u :: staleUids rest now maxAge := by
            simp [staleUids, List.filterMap_cons, hst]
          rw [hlist]
          refine List.nodup_cons.mpr ⟨?_, ih hn.2⟩
          intro hmem
          obtain ⟨s2, hmem2, _⟩ := of_mem_staleUids hmem
          exact hn.1 (by simpa using List.mem_map_of_mem Prod.fst hmem2)
        · simpa [staleUids, List.filterMap_cons, hst] using ih hn.2

theorem deleteLoop_spec :
    ∀ (uids : List Int) (m : UIManager) (count : Nat),
      (∀ uid ∈ uids, uid ≠ 0) →
      (∀ uid ∈ uids, ∃ sess : UISession, mget m.sessions (some uid) = some (some sess)) →
      uids.Nodup →
      ∃ m2 : UIManager,
        deleteLoop m uids count = Except.ok (m2, count + uids.length) ∧
        m2.last_cleanup = m.last_cleanup ∧
        (∀ k : Option Int, mget m2.sessions k =
          if k ∈ uids.map some then Option.none else mget m.sessions k) := by
  intro uids
  induction uids with
  | nil =>
    intro m count _ _ _
    exact ⟨m, by simp [deleteLoop], rfl, by intro k; simp⟩
  | cons uid rest ih =>
    intro m count hnz hex hnd
    obtain ⟨sess, hsess⟩ := hex uid (List.mem_cons_self _ _)
    have hz : uid ≠ 0 := hnz uid (List.mem_cons_self _ _)
    have hb : (uid == 0) = false := by simpa using hz
    have hdel : m.delete (SessArg.userId uid) =
        Except.ok ({ m with sessions := mdel m.sessions (some uid) }, some sess) := by
      simp [UIManager.delete, sessArgFalsy, hb, sessArgUid, hsess]
    have hex2 : ∀ u ∈ rest, ∃ s : UISession,
        mget (mdel m.sessions (some uid)) (some u) = some (some s) := by
      intro u hu
      obtain ⟨s, hs⟩ := hex u (List.mem_cons_of_mem _ hu)
      have hne : u ≠ uid := fun hh => (List.nodup_cons.mp hnd).1 (hh ▸ hu)
      exact ⟨s, by rw [mget_mdel_ne _ _ _ (by simpa using hne)]; exact hs⟩
    obtain ⟨m2, hloop, hlc, hchar⟩ :=
      ih { m with sessions := mdel m.sessions (some uid) } (count + 1)
        (fun u hu => hnz u (List.mem_cons_of_mem _ hu)) hex2 (List.nodup_cons.mp hnd).2
    refine ⟨m2, ?_, hlc, ?_⟩
    · have harith : count + 1 + rest.length = count + (uid :: rest).length := by
        simp only [List.length_cons]
        omega
      rw [show deleteLoop m (uid :: rest) count =
            Except.bind (m.delete (SessArg.userId uid))
              (fun rr => match rr with
                | (m2, some _) => deleteLoop m2 rest (count + 1)
                | (m2, Option.none) => deleteLoop m2 rest count) from rfl, hdel]
      simp only [Except.bind]
      rw [hloop, harith]
    · intro k
      rw [hchar k]
      by_cases hk : k = some uid
      · subst hk
        have h1 : some uid ∉ rest.map some := by
          intro hmem
          obtain ⟨u, hu, he⟩ := List.mem_map.mp hmem
          have : u = uid := by simpa using he
          subst this
          exact (List.nodup_cons.mp hnd).1 hu
        have h2 : some uid ∈ (uid :: rest).map some :=
          List.mem_map_of_mem some (List.mem_cons_self _ _)
        rw [if_neg h1, if_pos h2]
        exact mget_mdel_self _ _
      · by_cases hk2 : k ∈ rest.map some
        · have h2 : k ∈ (uid :: rest).map some := by
            simp only [List.map_cons]
            exact List.mem_cons_of_mem _ hk2
          rw [if_pos hk2, if_pos h2]
        · have h2 : k ∉ (uid :: rest).map some := by
            simp only [List.map_cons, List.mem_cons]
            rintro (h | h)
            · exact hk h
            · exact hk2 h
          rw [if_neg hk2, if_neg h2]
          exact mget_mdel_ne _ _ _ hk

/-- C9 (amended): `cleanup_old_sessions` is rate-limited — within 300
seconds of the last pass it returns 0 and changes nothing — and otherwise,
provided no stored session is keyed by the falsy uid `0` (deleting such a
key would raise `TypeError`), it stamps the clock, evicts exactly the
non-default sessions whose age exceeds the threshold, and returns their
count. -/
theorem c9_cleanup (m : UIManager) (now maxAge : Int) :
    (now - m.last_cleanup < 300 →
       m.cleanup_old_sessions now maxAge = Except.ok (m, 0)) ∧
    (now - m.last_cleanup ≥ 300 →
      (∀ p ∈ m.sessions, p.1 ≠ some 0) →
      ((m.sessions.map Prod.fst).Nodup) →
      ∃ m2 : UIManager,
        m.cleanup_old_sessions now maxAge =
          Except.ok (m2, (staleUids m.sessions now maxAge).length) ∧
        m2.last_cleanup = now ∧
        (∀ (uid : Int) (sess : UISession), mget m.sessions (some uid) = some (some sess) →
           now - sess.last_interaction_time > maxAge * 60 →
           mget m2.sessions (some uid) = Option.none) ∧
        (∀ k : Option Int, k ∉ (staleUids m.sessions now maxAge).map some →
           mget m2.sessions k = mget m.sessions k)) := by
  constructor
  · intro hrate
    simp [UIManager.cleanup_old_sessions, hrate]
  · intro hrate hnz hnd
    have hnz2 : ∀ uid ∈ staleUids m.sessions now maxAge, uid ≠ 0 := by
      intro uid hmem
      obtain ⟨sess, hmem2, _⟩ := of_mem_staleUids hmem
      intro hh
      subst hh
      exact hnz _ hmem2 rfl
    have hex : ∀ uid ∈ staleUids m.sessions now maxAge,
        ∃ sess : UISession, mget m.sessions (some uid) = some (some sess) := by
      intro uid hmem
      obtain ⟨sess, hmem2, _⟩ := of_mem_staleUids hmem
      exact ⟨sess, mget_eq_some_of_mem_nodup hnd hmem2⟩
    obtain ⟨m2, hloop, hlc, hchar⟩ :=
      deleteLoop_spec (staleUids m.sessions now maxAge)
        { m with last_cleanup := now } 0 hnz2 hex (staleUids_nodup _ _ _ hnd)
    refine ⟨m2, ?_, hlc, ?_, ?_⟩
    · rw [show m.cleanup_old_sessions now maxAge =
            (if now - m.last_cleanup < 300 then Except.ok (m, 0)
             else deleteLoop { m with last_cleanup := now }
               (staleUids m.sessions now maxAge) 0) from rfl,
          if_neg (by omega), hloop]
      simp
    · intro uid sess hs hst
      have hmem := mem_staleUids_of m.sessions now maxAge uid sess
        (mem_of_mget_eq_some hs) hst
      rw [hchar (some uid)]
      simp [List.mem_map_of_mem some hmem]
    · intro k hk
      rw [hchar k, if_neg hk]

/-- C9 counterexample: with a stale session stored for the falsy user id
`0`, the eviction pass raises `TypeError` out of `self.delete` instead of
evicting and returning the count, contradicting the claim. -/
theorem c9_counterexample :
    UIManager.cleanup_old_sessions managerZero 4000 60 =
      Except.error "TypeError: Parameter session required" := by rfl

/-- C9 witness (Scenario E): an idle session 4000 seconds old is evicted by
the first `cleanup_old_sessions(60)` call; a second call 60 seconds later is
rate-limited and returns 0. -/
theorem c9_witness :
    ∃ m2 : UIManager,
      UIManager.cleanup_old_sessions idleManager 4000 60 = Except.ok (m2, 1) ∧
      m2.last_cleanup = 4000 ∧
      UIManager.cleanup_old_sessions m2 4060 60 = Except.ok (m2, 0) := by
  obtain ⟨_, hev⟩ := c9_cleanup idleManager 4000 60
  obtain ⟨m2, h1, h2, _, _⟩ := hev (by decide) (by decide) (by decide)
  have hlen : (staleUids idleManager.sessions 4000 60).length = 1 := by rfl
  rw [hlen] at h1
  exact ⟨m2, h1, h2, (c9_cleanup m2 4060 60).1 (by rw [h2]; norm_num)⟩

/-- C10 (amended): `get`, `set` and `delete` raise `TypeError` for the falsy
raw id `0`, so user 0's session is unreachable by raw id — but a `UISession`
object is always truthy, so passing the object itself stores, retrieves and
deletes a session with uid `0` through the same public interface. -/
theorem c10_falsy_session_args (m : UIManager) (s : UISession) :
    (m.get (SessArg.userId 0) = Except.error "TypeError: Parameter session required" ∧
     m.set (SessArg.userId 0) = Except.error "TypeError: Parameter session required" ∧
     m.delete (SessArg.userId 0) = Except.error "TypeError: Parameter session required") ∧
    (s.uid = 0 →
      (m.set (SessArg.sessionObj s) =
         Except.ok ({ m with sessions := mset m.sessions (some 0) (some s) }, some s)) ∧
      (∀ s2 : UISession, mget m.sessions (some 0) = some (some s2) →
         m.get (SessArg.sessionObj s) = Except.ok (some s2) ∧
         m.delete (SessArg.sessionObj s) =
           Except.ok ({ m with sessions := mdel m.sessions (some 0) }, some s2))) := by
  refine ⟨⟨rfl, rfl, rfl⟩, ?_⟩
  intro h0
  refine ⟨?_, ?_⟩
  · simp [UIManager.set, sessArgFalsy, h0]
  · intro s2 hs2
    constructor
    · simp [UIManager.get, sessArgFalsy, sessArgUid, h0, hs2]
    · simp [UIManager.delete, sessArgFalsy, sessArgUid, h0, hs2]

/-- C10 counterexample: the session for user id `0` is stored, retrieved and
deleted through the manager's public interface by passing the session object
itself, refuting the claim that this can never happen. -/
theorem c10_counterexample :
    UIManager.set (UIManager.fresh 0) (SessArg.sessionObj sessionZero) =
      Except.ok (managerZero, some sessionZero) ∧
    UIManager.get managerZero (SessArg.sessionObj sessionZero) = Except.ok (some sessionZero) ∧
    UIManager.delete managerZero (SessArg.sessionObj sessionZero) =
      Except.ok (UIManager.fresh 0, some sessionZero) :=
  ⟨rfl, rfl, rfl⟩

/-- C10 witness: the raw id `0` raises, while the object path retrieves user
0's stored session. -/
theorem c10_witness :
    UIManager.get (UIManager.fresh 0) (SessArg.userId 0) =
      Except.error "TypeError: Parameter session required" ∧
    UIManager.get managerZero (SessArg.sessionObj sessionZero) = Except.ok (some sessionZero) := by
  obtain ⟨⟨hg, _, _⟩, _⟩ := c10_falsy_session_args (UIManager.fresh 0) sessionZero
  obtain ⟨_, hpart2⟩ := c10_falsy_session_args managerZero sessionZero
  obtain ⟨_, hget⟩ := hpart2 rfl
  exact ⟨hg, (hget sessionZero rfl).1⟩

theorem mkSessionRec_views (sid : String) (p : AMap String Value) (ts : String) :
    mget (mkSessionRec sid p ts) "views" = some (Value.vlist []) := by
  simp [mkSessionRec, mget]

theorem mkViewRec_session_id (vid : String) (p : AMap String Value) (ts : String) :
    mget (mkViewRec vid p ts) "session_id" = some ((mget p "session_id").getD Value.vnone) := by
  simp [mkViewRec, mget]

theorem sc_preserve (a : Action) (s : StateData) (hok : StateOK s) :
    ∃ rr : RRes, reduce_session_createdR a s = Except.ok rr ∧ StateOK (RRes.result s rr) := by
  obtain ⟨vm, sm, hvm, hsm, hsess, hview⟩ := hok
  cases hid : idOf a.payload "session_id" with
  | none =>
    exact ⟨RRes.sameRef, by simp [reduce_session_createdR, hid, except_pure_eq],
           ⟨vm, sm, hvm, hsm, hsess, hview⟩⟩
  | some sid =>
    by_cases hmem : mhas sm sid = true
    · exact ⟨RRes.newObj s,
             by simp [reduce_session_createdR, hid, hsm, hmem, except_pure_eq],
             ⟨vm, sm, hvm, hsm, hsess, hview⟩⟩
    · have hmem2 : mget sm sid = Option.none := by
        cases hh : mget sm sid with
        | none => rfl
        | some v => exact absurd (by simp [mhas, hh]) hmem
      refine ⟨RRes.newObj (mset s "sessions"
          (Value.vdict (mset sm sid (Value.vdict (mkSessionRec sid a.payload a.timestamp))))),
        ?_, ?_⟩
      · simp [reduce_session_createdR, hid, hsm, hmem, except_pure_eq]
      · simp only [RRes.result]
        refine ⟨vm, mset sm sid (Value.vdict (mkSessionRec sid a.payload a.timestamp)),
          ?_, ?_, ?_, ?_⟩
        · rw [mget_mset_ne _ _ _ _ (by decide)]
          exact hvm
        · exact mget_mset_self _ _ _
        · intro sid0 rec0 h0
          by_cases hs0 : sid0 = sid
          · subst hs0
            rw [mget_mset_self] at h0
            injection h0 with h0'
            refine ⟨mkSessionRec sid0 a.payload a.timestamp, [], h0'.symm,
              mkSessionRec_views _ _ _, List.nodup_nil, ?_⟩
            intro x hx
            simp at hx
          · rw [mget_mset_ne _ _ _ _ hs0] at h0
            exact hsess sid0 rec0 h0
        · intro vid0 rec0 h0
          obtain ⟨rd, x, hrec0, hx, hdisj⟩ := hview vid0 rec0 h0
          refine ⟨rd, x, hrec0, hx, ?_⟩
          rcases hdisj with h | ⟨sid0, srd, l, hxs, hs0ne, hlook, hviews, hmemx⟩
          · exact Or.inl h
          · have hne : sid0 ≠ sid := by
              rintro rfl
              rw [hmem2] at hlook
              exact Option.noConfusion hlook
            exact Or.inr ⟨sid0, srd, l, hxs, hs0ne,
              by rw [mget_mset_ne _ _ _ _ hne]; exact hlook, hviews, hmemx⟩

theorem vd_preserve (a : Action) (s : StateData) (hok : StateOK s) :
    ∃ rr : RRes, reduce_view_destroyedR a s = Except.ok rr ∧ StateOK (RRes.result s rr) := by
  obtain ⟨vm, sm, hvm, hsm, hsess, hview⟩ := hok
  cases hid : idOf a.payload "view_id" with
  | none =>
    exact ⟨RRes.sameRef, by simp [reduce_view_destroyedR, hid, except_pure_eq],
           ⟨vm, sm, hvm, hsm, hsess, hview⟩⟩
  | some vid =>
    cases hvget : mget vm vid with
    | none =>
      exact ⟨RRes.sameRef,
             by simp [reduce_view_destroyedR, hid, hvm, hvget, except_pure_eq],
             ⟨vm, sm, hvm, hsm, hsess, hview⟩⟩
    | some recV =>
      obtain ⟨rd, x, hrecV, hx, hdisj⟩ := hview vid recV hvget
      subst hrecV
      rcases hdisj with hxn | ⟨sid, srd, l, hxs, hsne, hlook, hviewsl, hmeml⟩
      · -- the view belongs to no session: only the record is deleted
        subst hxn
        refine ⟨RRes.newObj (mset s "views" (Value.vdict (mdel vm vid))), ?_, ?_⟩
        · simp [reduce_view_destroyedR, hid, hvm, hvget, hx, usableKey,
                except_pure_eq, except_bind_ok]
        · simp only [RRes.result]
          refine ⟨mdel vm vid, sm, mget_mset_self _ _ _,
            by rw [mget_mset_ne _ _ _ _ (by decide)]; exact hsm, ?_, ?_⟩
          · intro sid0 rec0 h0
            obtain ⟨rd0, l0, heq0, hviews0, hnodup0, helems0⟩ := hsess sid0 rec0 h0
            refine ⟨rd0, l0, heq0, hviews0, hnodup0, ?_⟩
            intro y hy
            obtain ⟨vid2, rd2, hy2, hvm2, hsid2⟩ := helems0 y hy
            have hne : vid2 ≠ vid := by
              rintro rfl
              rw [hvget] at hvm2
              injection hvm2 with hvm2'
              have hrd2 : rd2 = rd := (Value.vdict.inj hvm2').symm
              rw [hrd2, hx] at hsid2
              injection hsid2 with hsid2'
              exact Value.noConfusion hsid2'
            exact ⟨vid2, rd2, hy2, by rw [mget_mdel_ne _ _ _ hne]; exact hvm2, hsid2⟩
          · intro vid0 rec0 h0
            have hne : vid0 ≠ vid := by
              rintro rfl
              rw [mget_mdel_self] at h0
              exact Option.noConfusion h0
            rw [mget_mdel_ne _ _ _ hne] at h0
            exact hview vid0 rec0 h0
      · -- the view is listed by its session: record deleted, list entry removed
        subst hxs
        obtain ⟨rd1, l1, heq1, hviews1, hnodup1, helems1⟩ := hsess sid (Value.vdict srd) hlook
        injection heq1 with heq1'
        subst heq1'
        have hll : l1 = l := by
          rw [hviewsl] at hviews1
          injection hviews1 with hv1
          exact (Value.vlist.inj hv1).symm
        subst hll
        have hhas : lhasStr l1 vid = true := lhasStr_true_of_mem hmeml
        refine ⟨RRes.newObj (mset (mset s "views" (Value.vdict (mdel vm vid))) "sessions"
            (Value.vdict (mset sm sid
              (Value.vdict (mset srd "views" (Value.vlist (lremoveStr l1 vid))))))), ?_, ?_⟩
        · have hif : (if sid = "" then Option.none else some sid) = some sid := if_neg hsne
          simp [reduce_view_destroyedR, hid, hvm, hvget, hx, usableKey, hif,
                except_pure_eq, except_bind_ok, mget_mset_ne, mget_mset_self, hsm,
                hlook, hviewsl, hhas]
        · simp only [RRes.result]
          refine ⟨mdel vm vid,
            mset sm sid (Value.vdict (mset srd "views" (Value.vlist (lremoveStr l1 vid)))),
            ?_, mget_mset_self _ _ _, ?_, ?_⟩
          · rw [mget_mset_ne _ _ _ _ (by decide), mget_mset_self]
          · intro sid0 rec0 h0
            by_cases hs0 : sid0 = sid
            · subst hs0
              rw [mget_mset_self] at h0
              injection h0 with h0'
              refine ⟨mset srd "views" (Value.vlist (lremoveStr l1 vid)), lremoveStr l1 vid,
                h0'.symm, mget_mset_self _ _ _,
                (lremoveStr_sublist l1 vid).nodup hnodup1, ?_⟩
              intro y hy
              have hyl : y ∈ l1 := (lremoveStr_sublist l1 vid).mem hy
              obtain ⟨vid2, rd2, hy2, hvm2, hsid2⟩ := helems1 y hyl
              have hne : vid2 ≠ vid := by
                rintro rfl
                rw [hy2] at hy
                exact not_mem_lremoveStr l1 hnodup1 hy
              exact ⟨vid2, rd2, hy2, by rw [mget_mdel_ne _ _ _ hne]; exact hvm2, hsid2⟩
            · rw [mget_mset_ne _ _ _ _ hs0] at h0
              obtain ⟨rd0, l0, heq0, hviews0, hnodup0, helems0⟩ := hsess sid0 rec0 h0
              refine ⟨rd0, l0, heq0, hviews0, hnodup0, ?_⟩
              intro y hy
              obtain ⟨vid2, rd2, hy2, hvm2, hsid2⟩ := helems0 y hy
              have hne : vid2 ≠ vid := by
                rintro rfl
                rw [hvget] at hvm2
                injection hvm2 with hvm2'
                have hrd2 : rd2 = rd := (Value.vdict.inj hvm2').symm
                rw [hrd2, hx] at hsid2
                injection hsid2 with hsid2'
                exact hs0 (Value.vstr.inj hsid2').symm
              exact ⟨vid2, rd2, hy2, by rw [mget_mdel_ne _ _ _ hne]; exact hvm2, hsid2⟩
          · intro vid0 rec0 h0
            have hne : vid0 ≠ vid := by
              rintro rfl
              rw [mget_mdel_self] at h0
              exact Option.noConfusion h0
            rw [mget_mdel_ne _ _ _ hne] at h0
            obtain ⟨rd0, x0, heq0, hx0, hdisj0⟩ := hview vid0 rec0 h0
            refine ⟨rd0, x0, heq0, hx0, ?_⟩
            rcases hdisj0 with h | ⟨sid0, srd0, l0, hx0s, hs0ne, hlook0, hviews0, hmem0⟩
            · exact Or.inl h
            · by_cases hs0 : sid0 = sid
              · subst hs0
                rw [hlook] at hlook0
                injection hlook0 with hlook0'
                have hsrd : srd0 = srd := Value.vdict.inj hlook0'.symm
                have hl0 : l0 = l1 := by
                  rw [hsrd, hviewsl] at hviews0
                  injection hviews0 with hv0
                  exact (Value.vlist.inj hv0).symm
                rw [hl0] at hmem0
                refine Or.inr ⟨sid0, mset srd "views" (Value.vlist (lremoveStr l1 vid)),
                  lremoveStr l1 vid, hx0s, hs0ne, mget_mset_self _ _ _,
                  mget_mset_self _ _ _, ?_⟩
                exact mem_lremoveStr_of_ne
                  (fun hh => hne (Value.vstr.inj hh)) l1 hmem0
              · exact Or.inr ⟨sid0, srd0, l0, hx0s, hs0ne,
                  by rw [mget_mset_ne _ _ _ _ hs0]; exact hlook0, hviews0, hmem0⟩

theorem idOf_some_inv {p : AMap String Value} {k : String} {sid : String}
    (h : idOf p k = some sid) : mget p k = some (Value.vstr sid) ∧ sid ≠ "" := by
  unfold idOf at h
  cases hraw : mget p k with
  | none => rw [hraw] at h; exact Option.noConfusion h
  | some x =>
    rw [hraw] at h
    cases x with
    | vstr t =>
      by_cases ht : t = ""
      · simp [ht] at h
      · simp [ht] at h
        subst h
        exact ⟨rfl, ht⟩
    | vnone => simp at h
    | vbool b => simp at h
    | vint n => simp at h
    | vlist xs => simp at h
    | vdict mm => simp at h

theorem vc_preserve (a : Action) (s : StateData) (hok : StateOK s)
    (hpre : VCPre s a.payload) :
    ∃ rr : RRes, reduce_view_createdR a s = Except.ok rr ∧ StateOK (RRes.result s rr) := by
  obtain ⟨vm, sm, hvm, hsm, hsess, hview⟩ := hok
  cases hid : idOf a.payload "view_id" with
  | none =>
    exact ⟨RRes.sameRef, by simp [reduce_view_createdR, hid, except_pure_eq],
           ⟨vm, sm, hvm, hsm, hsess, hview⟩⟩
  | some vid =>
    have hfresh : mget vm vid = Option.none := by
      have h := hpre.1 vid hid
      simpa [viewsOf, hvm] using h
    cases hidsid : idOf a.payload "session_id" with
    | none =>
      have hrecsid : mget (mkViewRec vid a.payload a.timestamp) "session_id" =
          some Value.vnone := by
        rw [mkViewRec_session_id]
        cases hraw : mget a.payload "session_id" with
        | none => rfl
        | some x =>
          rcases hpre.2 x hraw with rfl | ⟨sid2, rfl, hsne2, _⟩
          · rfl
          · simp [idOf, hraw, hsne2] at hidsid
      refine ⟨RRes.newObj (mset s "views" (Value.vdict (mset vm vid
          (Value.vdict (mkViewRec vid a.payload a.timestamp))))), ?_, ?_⟩
      · simp [reduce_view_createdR, hid, hvm, hidsid, except_pure_eq, except_bind_ok]
      · simp only [RRes.result]
        refine ⟨mset vm vid (Value.vdict (mkViewRec vid a.payload a.timestamp)), sm,
          mget_mset_self _ _ _, by rw [mget_mset_ne _ _ _ _ (by decide)]; exact hsm, ?_, ?_⟩
        · intro sid0 rec0 h0
          obtain ⟨rd0, l0, heq0, hviews0, hnodup0, helems0⟩ := hsess sid0 rec0 h0
          refine ⟨rd0, l0, heq0, hviews0, hnodup0, ?_⟩
          intro y hy
          obtain ⟨vid2, rd2, hy2, hvm2, hsid2⟩ := helems0 y hy
          have hne : vid2 ≠ vid := by
            rintro rfl
            rw [hfresh] at hvm2
            exact Option.noConfusion hvm2
          exact ⟨vid2, rd2, hy2, by rw [mget_mset_ne _ _ _ _ hne]; exact hvm2, hsid2⟩
        · intro vid0 rec0 h0
          by_cases hv : vid0 = vid
          · subst hv
            rw [mget_mset_self] at h0
            injection h0 with h0'
            exact ⟨mkViewRec vid0 a.payload a.timestamp, Value.vnone, h0'.symm, hrecsid,
              Or.inl rfl⟩
          · rw [mget_mset_ne _ _ _ _ hv] at h0
            exact hview vid0 rec0 h0
    | some sid =>
      obtain ⟨hraws, hsne⟩ := idOf_some_inv hidsid
      have hsex : (mget sm sid).isSome = true := by
        rcases hpre.2 _ hraws with h | ⟨sid2, heq, _, hex⟩
        · exact Value.noConfusion h
        · have hss : sid2 = sid := (Value.vstr.inj heq).symm
          subst hss
          simpa [sessionsOf, hsm] using hex
      obtain ⟨srecV, hsrecV⟩ := Option.isSome_iff_exists.mp hsex
      obtain ⟨srd, l, heqs, hviewsl, hnodup, helems⟩ := hsess sid srecV hsrecV
      subst heqs
      have hnm : Value.vstr vid ∉ l := by
        intro hmem
        obtain ⟨vid2, rd2, hy2, hvm2, _⟩ := helems _ hmem
        injection hy2 with hy2'
        rw [← hy2'] at hvm2
        rw [hfresh] at hvm2
        exact Option.noConfusion hvm2
      have hnothas : lhasStr l vid = false := by
        cases hh : lhasStr l vid with
        | false => rfl
        | true => exact absurd (mem_of_lhasStr hh) hnm
      refine ⟨RRes.newObj
          (mset (mset s "views" (Value.vdict (mset vm vid
              (Value.vdict (mkViewRec vid a.payload a.timestamp)))))
            "sessions" (Value.vdict (mset sm sid (Value.vdict (mset srd "views"
              (Value.vlist (l ++ [Value.vstr vid]))))))), ?_, ?_⟩
      · simp [reduce_view_createdR, hid, hvm, hidsid, except_pure_eq, except_bind_ok,
              mget_mset_ne, mget_mset_self, hsm, hsrecV, hviewsl, hnothas]
      · simp only [RRes.result]
        refine ⟨mset vm vid (Value.vdict (mkViewRec vid a.payload a.timestamp)),
          mset sm sid (Value.vdict (mset srd "views" (Value.vlist (l ++ [Value.vstr vid])))),
          ?_, mget_mset_self _ _ _, ?_, ?_⟩
        · rw [mget_mset_ne _ _ _ _ (by decide), mget_mset_self]
        · intro sid0 rec0 h0
          by_cases hs0 : sid0 = sid
          · subst hs0
            rw [mget_mset_self] at h0
            injection h0 with h0'
            refine ⟨mset srd "views" (Value.vlist (l ++ [Value.vstr vid])),
              l ++ [Value.vstr vid], h0'.symm, mget_mset_self _ _ _, ?_, ?_⟩
            · simp [List.nodup_append, hnodup, hnm]
            · intro y hy
              rcases List.mem_append.mp hy with hyl | hy1
              · obtain ⟨vid2, rd2, hy2, hvm2, hsid2⟩ := helems y hyl
                have hne2 : vid2 ≠ vid := by
                  rintro rfl
                  rw [hfresh] at hvm2
                  exact Option.noConfusion hvm2
                exact ⟨vid2, rd2, hy2, by rw [mget_mset_ne _ _ _ _ hne2]; exact hvm2, hsid2⟩
              · have hy2 : y = Value.vstr vid := by simpa using hy1
                subst hy2
                refine ⟨vid, mkViewRec vid a.payload a.timestamp, rfl, mget_mset_self _ _ _, ?_⟩
                rw [mkViewRec_session_id, hraws]
                rfl
          · rw [mget_mset_ne _ _ _ _ hs0] at h0
            obtain ⟨rd0, l0, heq0, hviews0, hnodup0, helems0⟩ := hsess sid0 rec0 h0
            refine ⟨rd0, l0, heq0, hviews0, hnodup0, ?_⟩
            intro y hy
            obtain ⟨vid2, rd2, hy2, hvm2, hsid2⟩ := helems0 y hy
            have hne2 : vid2 ≠ vid := by
              rintro rfl
              rw [hfresh] at hvm2
              exact Option.noConfusion hvm2
            exact ⟨vid2, rd2, hy2, by rw [mget_mset_ne _ _ _ _ hne2]; exact hvm2, hsid2⟩
        · intro vid0 rec0 h0
          by_cases hv : vid0 = vid
          · subst hv
            rw [mget_mset_self] at h0
            injection h0 with h0'
            refine ⟨mkViewRec vid0 a.payload a.timestamp, Value.vstr sid, h0'.symm, ?_, ?_⟩
            · rw [mkViewRec_session_id, hraws]
              rfl
            · exact Or.inr ⟨sid, mset srd "views" (Value.vlist (l ++ [Value.vstr vid0])),
                l ++ [Value.vstr vid0], rfl, hsne, mget_mset_self _ _ _, mget_mset_self _ _ _,
                List.mem_append_right _ (List.mem_singleton_self _)⟩
          · rw [mget_mset_ne _ _ _ _ hv] at h0
            obtain ⟨rd0, x0, heq0, hx0, hdisj0⟩ := hview vid0 rec0 h0
            refine ⟨rd0, x0, heq0, hx0, ?_⟩
            rcases hdisj0 with h | ⟨sid0, srd0, l0, hx0s, hs0ne, hlook0, hviews0, hmem0⟩
            · exact Or.inl h
            · by_cases hs0 : sid0 = sid
              · subst hs0
                rw [hsrecV] at hlook0
                injection hlook0 with hlook0'
                have hsrd0 : srd0 = srd := Value.vdict.inj hlook0'.symm
                have hl0 : l0 = l := by
                  rw [hsrd0, hviewsl] at hviews0
                  injection hviews0 with hv0
                  exact (Value.vlist.inj hv0).symm
                rw [hl0] at hmem0
                refine Or.inr ⟨sid0, mset srd "views" (Value.vlist (l ++ [Value.vstr vid])),
                  l ++ [Value.vstr vid], hx0s, hs0ne, mget_mset_self _ _ _,
                  mget_mset_self _ _ _, List.mem_append_left _ hmem0⟩
              · exact Or.inr ⟨sid0, srd0, l0, hx0s, hs0ne,
                  by rw [mget_mset_ne _ _ _ _ hs0]; exact hlook0, hviews0, hmem0⟩

theorem core_lookup_eq (st : StateStore) (hcust : st.custom_reducers = [])
    (hred : (st.core_reducers = [] ∧ st.reducers = []) ∨
            (st.core_reducers = coreReducerTable ∧ st.reducers = coreReducerTable)) :
    (load_core_reducers st).reducers = coreReducerTable := by
  rcases hred with ⟨hc, _⟩ | ⟨hc, hr⟩
  · simp [load_core_reducers, hc, hcust, mmerge]
  · simp [load_core_reducers, hc, hr, coreReducerTable]

theorem core_table_eq (st : StateStore) (hcust : st.custom_reducers = [])
    (hred : (st.core_reducers = [] ∧ st.reducers = []) ∨
            (st.core_reducers = coreReducerTable ∧ st.reducers = coreReducerTable)) :
    (load_core_reducers st).core_reducers = coreReducerTable := by
  rcases hred with ⟨hc, _⟩ | ⟨hc, hr⟩
  · simp [load_core_reducers, hc]
  · simp [load_core_reducers, hc, coreReducerTable]

theorem c2_step (st : StateStore) (i : DisIn)
    (hty : i.atype = "VIEW_CREATED" ∨ i.atype = "VIEW_DESTROYED" ∨ i.atype = "SESSION_CREATED")
    (hpre : i.atype = "VIEW_CREATED" → VCPre st.state (i.payload.getD []))
    (hsOK : StoreOKC2 st) :
    StoreOKC2 (dispatch st i.atype i.payload i.source i.now).store := by
  obtain ⟨hstate, hcust, hred⟩ := hsOK
  have hlookup : (load_core_reducers st).reducers = coreReducerTable :=
    core_lookup_eq st hcust hred
  refine ⟨?_, ?_, Or.inr ⟨?_, ?_⟩⟩
  · rcases hty with h | h | h
    · rw [h]
      rw [show (dispatch st "VIEW_CREATED" i.payload i.source i.now).store.state =
            (dispatch st "VIEW_CREATED" i.payload i.source i.now).result from rfl,
          dispatch_result_eq, hlookup]
      obtain ⟨rr, hrr, hok2⟩ :=
        vc_preserve (builtAction "VIEW_CREATED" i.payload i.source i.now) st.state hstate
          (hpre h)
      simp only [show mget coreReducerTable "VIEW_CREATED" = some reduce_view_createdR
        from rfl, hrr]
      exact hok2
    · rw [h]
      rw [show (dispatch st "VIEW_DESTROYED" i.payload i.source i.now).store.state =
            (dispatch st "VIEW_DESTROYED" i.payload i.source i.now).result from rfl,
          dispatch_result_eq, hlookup]
      obtain ⟨rr, hrr, hok2⟩ :=
        vd_preserve (builtAction "VIEW_DESTROYED" i.payload i.source i.now) st.state hstate
      simp only [show mget coreReducerTable "VIEW_DESTROYED" = some reduce_view_destroyedR
        from rfl, hrr]
      exact hok2
    · rw [h]
      rw [show (dispatch st "SESSION_CREATED" i.payload i.source i.now).store.state =
            (dispatch st "SESSION_CREATED" i.payload i.source i.now).result from rfl,
          dispatch_result_eq, hlookup]
      obtain ⟨rr, hrr, hok2⟩ :=
        sc_preserve (builtAction "SESSION_CREATED" i.payload i.source i.now) st.state hstate
      simp only [show mget coreReducerTable "SESSION_CREATED" = some reduce_session_createdR
        from rfl, hrr]
      exact hok2
  · rw [dispatch_store_custom_eq]
    exact hcust
  · rw [dispatch_store_core_eq]
    exact core_table_eq st hcust hred
  · rw [dispatch_store_reducers_eq]
    exact hlookup

theorem c2run_preserve : ∀ {st : StateStore} {ins : List DisIn} {stF : StateStore},
    C2Run st ins stF → StoreOKC2 st → StoreOKC2 stF := by
  intro st ins stF hrun
  induction hrun with
  | nil st => exact fun h => h
  | cons st i rest stF hty hpre htail ih => exact fun hok => ih (c2_step st i hty hpre hok)

theorem init_storeOK : StoreOKC2 StateStore.init := by
  refine ⟨⟨[], [], rfl, rfl, ?_, ?_⟩, rfl, Or.inl ⟨rfl, rfl⟩⟩
  · intro sid rec h
    simp [mget] at h
  · intro vid rec h
    simp [mget] at h

/-- C2 (amended): after any sequence of `VIEW_CREATED`, `VIEW_DESTROYED` and
`SESSION_CREATED` dispatches from the store's initial state in which every
`VIEW_CREATED` carries a fresh view id and a `session_id` that is absent,
`None`, or a nonempty string naming an already-existing session, referential
integrity holds: every view id in any session's `views` list is a key of the
`views` map, and every view whose `session_id` names an existing session is
listed in that session's `views` list. (Without the discipline on
`VIEW_CREATED` the property fails — see the counterexample.) -/
theorem c2_referential_integrity (ins : List DisIn) (stF : StateStore)
    (hrun : C2Run StateStore.init ins stF) : RefIntegrity stF.state := by
  obtain ⟨⟨vm, sm, hvm, hsm, hsess, hview⟩, _, _⟩ := c2run_preserve hrun init_storeOK
  have hVof : viewsOf stF.state = vm := by simp [viewsOf, hvm]
  have hSof : sessionsOf stF.state = sm := by simp [sessionsOf, hsm]
  constructor
  · intro sid rd l vid hs hl hmem
    rw [hSof] at hs
    rw [hVof]
    obtain ⟨rd1, l1, heq1, hviews1, hnodup1, helems1⟩ := hsess sid (Value.vdict rd) hs
    have hrd1 : rd1 = rd := Value.vdict.inj heq1.symm
    have hl1 : l1 = l := by
      rw [hrd1, hl] at hviews1
      exact (Value.vlist.inj (Option.some.inj hviews1)).symm
    rw [hl1] at helems1
    obtain ⟨vid2, rd2, hy2, hvm2, _⟩ := helems1 (Value.vstr vid) hmem
    have hv2 : vid2 = vid := (Value.vstr.inj hy2).symm
    rw [hv2] at hvm2
    simp [hvm2]
  · intro vid rd sid srd hv hsid hs
    rw [hVof] at hv
    rw [hSof] at hs
    obtain ⟨rd1, x, heq1, hx, hdisj⟩ := hview vid (Value.vdict rd) hv
    have hrd1 : rd1 = rd := Value.vdict.inj heq1.symm
    rw [hrd1, hsid] at hx
    have hxv : x = Value.vstr sid := (Option.some.inj hx).symm
    subst hxv
    rcases hdisj with h | ⟨sid2, srd2, l2, hx2, _, hlook2, hviews2, hmem2⟩
    · exact Value.noConfusion h
    · have hs2 : sid2 = sid := (Value.vstr.inj hx2).symm
      subst hs2
      rw [hs] at hlook2
      have hsrd2 : srd2 = srd := Value.vdict.inj (Option.some.inj hlook2).symm
      rw [hsrd2] at hviews2
      exact ⟨l2, hviews2, hmem2⟩

/-- C2 counterexample: creating view `v1` attached to the not-yet-existing
session `s1` and then creating `s1` leaves `v1` pointing at the live session
`s1` while `s1`'s `views` list is empty — the claimed referential integrity
fails on this dispatch sequence. -/
theorem c2_counterexample :
    ¬ RefIntegrity (runDispatches StateStore.init [c2badIn1, c2badIn2]).state := by
  intro h
  obtain ⟨_, dir2⟩ := h
  obtain ⟨l, hl, hmem⟩ := dir2 "v1" c2rec "s1" c2srec (by rfl) (by rfl) (by rfl)
  rw [show mget c2srec "views" = some (Value.vlist []) from rfl] at hl
  have hle : l = [] := (Value.vlist.inj (Option.some.inj hl)).symm
  rw [hle] at hmem
  simp at hmem

/-- C2 witness: the disciplined run — create `s1`, create `v1` inside it,
destroy `v1` — satisfies referential integrity at the end. -/
theorem c2_witness :
    RefIntegrity (runDispatches StateStore.init [c2goodIn1, c2goodIn2, c2goodIn3]).state := by
  apply c2_referential_integrity [c2goodIn1, c2goodIn2, c2goodIn3]
  refine C2Run.cons _ _ _ _ (Or.inr (Or.inr rfl)) (fun hh => absurd hh (by decide)) ?_
  refine C2Run.cons _ _ _ _ (Or.inl rfl) ?_ ?_
  · intro _
    constructor
    · intro vid hvid
      rw [show idOf (c2goodIn2.payload.getD []) "view_id" = some "v1" from rfl] at hvid
      injection hvid with hvid'
      rw [← hvid']
      rfl
    · intro x hx
      rw [show mget (c2goodIn2.payload.getD []) "session_id" = some (Value.vstr "s1")
        from rfl] at hx
      injection hx with hx'
      refine Or.inr ⟨"s1", hx'.symm, by decide, ?_⟩
      rfl
  · refine C2Run.cons _ _ _ _ (Or.inr (Or.inl rfl)) (fun hh => absurd hh (by decide)) ?_
    exact C2Run.nil _

end CascadeUI
